import Mathlib

/-!
# terraform-provider-aws-extras: listener-rule normalizer and provider configuration

A shallow embedding of `provider/data_source_aws_lb_listener_rule.go` and
`provider/provider.go`.

Conventions of the embedding

* A Go pointer `*T` is an `Option T`; dereferencing `none` is a nil-pointer
  panic, rendered as the `none` result of the mapping functions and as the
  `panicked` flag of `Read` and `Configure`.
* A Go slice `[]T` is a `GoSlice T = Option (List T)`: `none` is the nil
  slice, `some []` an allocated slice of length zero (`make([]T, 0)`).
* `int32` and `int` values are integers; the conversion `int(x)` of an `int32`
  is value preserving.
* The AWS SDK calls (`DescribeRules`, `LoadDefaultConfig`, `AssumeRole`) and the
  results of the host's `Config.Get` / `State.Set` are inputs of the model.
-/

namespace AwsExtras

/-! ## Go slices -/

/-- A Go slice: `none` is `nil`, `some xs` an allocated slice holding `xs`. -/
abbrev GoSlice (α : Type) := Option (List α)

/-- The elements a `for ... range` loop over the slice visits. -/
def GoSlice.toList {α : Type} (s : GoSlice α) : List α :=
  match s with
  | none => []
  | some xs => xs

/-- Go `len(s)`. -/
def GoSlice.len {α : Type} (s : GoSlice α) : Nat := s.toList.length

/-- Go `append(s, x)`: the result is never nil. -/
def GoSlice.append {α : Type} (s : GoSlice α) (x : α) : GoSlice α :=
  some (s.toList ++ [x])

/-- The loop `for _, x := range xs { acc = append(acc, f x) }` where evaluating
`f x` may dereference a nil pointer (`none`), which aborts the whole loop. -/
def rangeAppend {α β : Type} (f : α → Option β) : List α → GoSlice β → Option (GoSlice β)
  | [], acc => some acc
  | x :: xs, acc =>
    match f x with
    | none => none
    | some y => rangeAppend f xs (GoSlice.append acc y)

/-! ## Remote (AWS SDK) types: `elasticloadbalancingv2/types` -/

/-- The SDK shape shared by `HostHeaderConditionConfig`, `HttpHeaderConditionConfig`,
`HttpRequestMethodConditionConfig`, `PathPatternConditionConfig` and
`SourceIpConditionConfig`: the code only reads `Values`. -/
structure ValuesConfig where
  Values : GoSlice String
  deriving DecidableEq, Repr

/-- SDK `types.QueryStringKeyValuePair`. -/
structure QueryStringKeyValuePair where
  Key : Option String
  Value : Option String
  deriving DecidableEq, Repr

/-- SDK `types.QueryStringConditionConfig`. -/
structure QueryStringConditionConfig where
  Values : GoSlice QueryStringKeyValuePair
  deriving DecidableEq, Repr

/-- SDK `types.RuleCondition`. -/
structure RuleCondition where
  Field : Option String
  HostHeaderConfig : Option ValuesConfig
  HttpHeaderConfig : Option ValuesConfig
  HttpRequestMethodConfig : Option ValuesConfig
  PathPatternConfig : Option ValuesConfig
  QueryStringConfig : Option QueryStringConditionConfig
  SourceIpConfig : Option ValuesConfig
  Values : GoSlice String
  deriving DecidableEq, Repr

/-- SDK `types.TargetGroupTuple`. -/
structure TargetGroupTuple where
  TargetGroupArn : Option String
  Weight : Option Int
  deriving DecidableEq, Repr

/-- SDK `types.ForwardActionConfig` (the stickiness settings are never read). -/
structure ForwardActionConfig where
  TargetGroups : GoSlice TargetGroupTuple
  deriving DecidableEq, Repr

/-- SDK `types.FixedResponseActionConfig`. -/
structure FixedResponseActionConfig where
  StatusCode : Option String
  MessageBody : Option String
  ContentType : Option String
  deriving DecidableEq, Repr

/-- SDK `types.Action`. `Typ` is the Go field `Type` (an `ActionTypeEnum`, a
string). The redirect and authenticate payloads are kept as uninterpreted
strings: the code never reads them. -/
structure Action where
  Typ : String
  Order : Option Int
  ForwardConfig : Option ForwardActionConfig
  FixedResponseConfig : Option FixedResponseActionConfig
  TargetGroupArn : Option String
  RedirectConfig : Option String
  AuthenticateOidcConfig : Option String
  AuthenticateCognitoConfig : Option String
  deriving DecidableEq, Repr

/-- SDK `types.Rule`. -/
structure Rule where
  RuleArn : Option String
  IsDefault : Bool
  Priority : Option String
  Conditions : GoSlice RuleCondition
  Actions : GoSlice Action
  deriving DecidableEq, Repr

/-- SDK `DescribeRulesOutput`. -/
structure DescribeRulesOutput where
  Rules : GoSlice Rule
  deriving DecidableEq, Repr

/-! ## Output types of the data source -/

structure keyValuePair where
  Key : String
  Value : String
  deriving DecidableEq, Repr

structure listenerRuleConditions where
  Field : String
  HostHeaderConfig : GoSlice String
  HttpHeaderConfig : GoSlice String
  HttpRequestMethodConfig : GoSlice String
  PathPatternConfig : GoSlice String
  QueryStringConfig : GoSlice keyValuePair
  SourceIpConfig : GoSlice String
  Values : GoSlice String
  deriving DecidableEq, Repr

structure actionForwardConfig where
  TargetGroupArn : String
  Weight : Int
  deriving DecidableEq, Repr

structure actionFixedResponseConfig where
  StatusCode : String
  MessageBody : String
  ContentType : String
  deriving DecidableEq, Repr

structure listenerRuleActions where
  Typ : String
  Order : Int
  ForwardConfig : GoSlice actionForwardConfig
  FixedResponseConfig : Option actionFixedResponseConfig
  TargetGroupArn : Option String
  deriving DecidableEq, Repr

structure listenerRule where
  RuleArn : String
  IsDefault : Bool
  Priority : String
  Conditions : GoSlice listenerRuleConditions
  Actions : GoSlice listenerRuleActions
  deriving DecidableEq, Repr

/-- Framework `types.String`. -/
structure TfString where
  Unknown : Bool
  Null : Bool
  Value : String
  deriving DecidableEq, Repr

structure dataSourceListenerRulesData where
  ListenerArn : TfString
  Rules : GoSlice listenerRule
  deriving DecidableEq, Repr

/-! ## The body of `Read`, lines 149-238: the mapping loops -/

/-- Lines 152-155 (and the three siblings and 183-186):
`var c []string; if slot != nil { c = slot.Values }`. -/
def valuesOf (slot : Option ValuesConfig) : GoSlice String :=
  match slot with
  | none => none
  | some c => c.Values

/-- Lines 176-179: one query-string pair, dereferencing `Key` and `Value`. -/
def mapKeyValuePair (elem : QueryStringKeyValuePair) : Option keyValuePair :=
  match elem.Key, elem.Value with
  | some k, some v => some { Key := k, Value := v }
  | _, _ => none

/-- Lines 172-181. -/
def queryStringConfigOf (slot : Option QueryStringConditionConfig) :
    Option (GoSlice keyValuePair) :=
  match slot with
  | none => some none
  | some c => rangeAppend mapKeyValuePair c.Values.toList (some [])

/-- Lines 152-197: the body of the loop over `rule.Conditions`. -/
def mapCondition (condition : RuleCondition) : Option listenerRuleConditions :=
  match queryStringConfigOf condition.QueryStringConfig with
  | none => none
  | some queryStringConfig =>
    match condition.Field with
    | none => none
    | some field =>
      some { Field := field
             HostHeaderConfig := valuesOf condition.HostHeaderConfig
             HttpHeaderConfig := valuesOf condition.HttpHeaderConfig
             HttpRequestMethodConfig := valuesOf condition.HttpRequestMethodConfig
             PathPatternConfig := valuesOf condition.PathPatternConfig
             QueryStringConfig := queryStringConfig
             SourceIpConfig := valuesOf condition.SourceIpConfig
             Values := condition.Values }

/-- Lines 206-209: one target group, dereferencing `TargetGroupArn` and `Weight`. -/
def mapTargetGroup (elem : TargetGroupTuple) : Option actionForwardConfig :=
  match elem.TargetGroupArn, elem.Weight with
  | some arn, some w => some { TargetGroupArn := arn, Weight := w }
  | _, _ => none

/-- Lines 202-211. -/
def forwardConfigOf (slot : Option ForwardActionConfig) :
    Option (GoSlice actionForwardConfig) :=
  match slot with
  | none => some none
  | some c => rangeAppend mapTargetGroup c.TargetGroups.toList (some [])

/-- Lines 213-220. -/
def fixedResponseConfigOf (slot : Option FixedResponseActionConfig) :
    Option (Option actionFixedResponseConfig) :=
  match slot with
  | none => some none
  | some c =>
    match c.StatusCode, c.MessageBody, c.ContentType with
    | some sc, some mb, some ct =>
      some (some { StatusCode := sc, MessageBody := mb, ContentType := ct })
    | _, _, _ => none

/-- Lines 202-228: the body of the loop over `rule.Actions`. -/
def mapAction (action : Action) : Option listenerRuleActions :=
  match forwardConfigOf action.ForwardConfig with
  | none => none
  | some forwardConfig =>
    match fixedResponseConfigOf action.FixedResponseConfig with
    | none => none
    | some fixedResponseConfig =>
      match action.Order with
      | none => none
      | some order =>
        some { Typ := action.Typ
               Order := order
               ForwardConfig := forwardConfig
               FixedResponseConfig := fixedResponseConfig
               TargetGroupArn := action.TargetGroupArn }

/-- Lines 150-237: the body of the loop over `res.Rules`. -/
def mapRule (rule : Rule) : Option listenerRule :=
  match rangeAppend mapCondition rule.Conditions.toList (some []) with
  | none => none
  | some conditions =>
    match rangeAppend mapAction rule.Actions.toList (some []) with
    | none => none
    | some actions =>
      match rule.RuleArn, rule.Priority with
      | some arn, some prio =>
        some { RuleArn := arn
               IsDefault := rule.IsDefault
               Priority := prio
               Conditions := conditions
               Actions := actions }
      | _, _ => none

/-! ## Diagnostics (framework `diag` package) -/

inductive Severity where
  | error
  | warning
  deriving DecidableEq, Repr

structure Diagnostic where
  severity : Severity
  summary : String
  detail : String
  deriving DecidableEq, Repr

abbrev Diagnostics := List Diagnostic

/-- Framework `Diagnostics.Append`: adds each diagnostic that is not already
contained, in order. -/
def Diagnostics.Append (diags : Diagnostics) (more : List Diagnostic) : Diagnostics :=
  more.foldl (fun acc d => if d ∈ acc then acc else acc ++ [d]) diags

/-- Framework `Diagnostics.AddError(summary, detail)`. -/
def Diagnostics.AddError (diags : Diagnostics) (summary detail : String) : Diagnostics :=
  Diagnostics.Append diags [{ severity := Severity.error, summary := summary, detail := detail }]

/-- Framework `Diagnostics.HasError`. -/
def Diagnostics.HasError (diags : Diagnostics) : Bool :=
  diags.any (fun d => decide (d.severity = Severity.error))

/-! ## Provider state and AWS collaborators -/

/-- An `aws.CredentialsProvider`: either the source resolved by
`config.LoadDefaultConfig` (uninterpreted, identified by a label) or the value
built by `credentials.NewStaticCredentialsProvider`. -/
inductive CredentialsProvider where
  | defaultChain (label : String)
  | static (accessKeyId secretAccessKey sessionToken : String)
  deriving DecidableEq, Repr

/-- The Go struct `provider`; the nil interface value is `none`. -/
structure provider where
  configured : Bool
  region : String
  credentials : Option CredentialsProvider
  deriving DecidableEq, Repr

/-- `provider.New()`: the zero value. -/
def New : provider := { configured := false, region := "", credentials := none }

structure providerData where
  Region : TfString
  AssumeRoleArn : TfString
  SessionName : TfString
  deriving DecidableEq, Repr

/-- The part of `aws.Config` the code reads. -/
structure AwsConfig where
  Region : String
  Credentials : CredentialsProvider
  deriving DecidableEq, Repr

/-- SDK `sts.AssumeRoleInput`. -/
structure AssumeRoleInput where
  RoleArn : Option String
  RoleSessionName : Option String
  deriving DecidableEq, Repr

/-- SDK `sts/types.Credentials`. -/
structure StsCredentials where
  AccessKeyId : Option String
  SecretAccessKey : Option String
  SessionToken : Option String
  deriving DecidableEq, Repr

/-- SDK `sts.AssumeRoleOutput`. -/
structure AssumeRoleOutput where
  Credentials : Option StsCredentials
  deriving DecidableEq, Repr

/-- The remote collaborators: each call returns a value or an error text
(`err.Error()`). -/
structure Aws where
  LoadDefaultConfig : String → Except String AwsConfig
  AssumeRole : AwsConfig → AssumeRoleInput → Except String AssumeRoleOutput
  DescribeRules : Option CredentialsProvider → String → String → Except String DescribeRulesOutput

/-- A remote call made by an operation, in the order made. -/
inductive ApiCall where
  | loadDefaultConfig (region : String)
  | assumeRole (input : AssumeRoleInput)
  | describeRules (listenerArn : String)
  deriving DecidableEq, Repr

/-- Whether a call is addressed to STS. -/
def ApiCall.isSts : ApiCall → Bool
  | ApiCall.assumeRole _ => true
  | _ => false

/-! ## `Read` (data_source_aws_lb_listener_rule.go, lines 125-241) -/

/-- The configuration of the data source as the host presents it. `rules` is a
computed attribute, so the configuration holds no value for it; `getDiags` are
the diagnostics `Config.Get` reports while decoding. -/
structure DataSourceConfig where
  listener_arn : TfString
  getDiags : Diagnostics
  deriving DecidableEq, Repr

/-- Framework `req.Config.Get(ctx, &cfg)`: the null `rules` decodes to the nil slice. -/
def DataSourceConfig.Get (c : DataSourceConfig) : dataSourceListenerRulesData × Diagnostics :=
  ({ ListenerArn := c.listener_arn, Rules := none }, c.getDiags)

structure ReadDataSourceRequest where
  Config : DataSourceConfig
  deriving DecidableEq, Repr

/-- Framework `tfsdk.ReadDataSourceResponse`: `State` is `none` until
`State.Set` stores a value. -/
structure ReadDataSourceResponse where
  State : Option dataSourceListenerRulesData
  Diagnostics : Diagnostics
  deriving DecidableEq, Repr

/-- What a run of `Read` leaves behind: the response, the remote calls made, and
whether the run ended in a nil-pointer panic instead of returning. -/
structure ReadResult where
  resp : ReadDataSourceResponse
  calls : List ApiCall
  panicked : Bool
  deriving DecidableEq, Repr

/-- Lines 149-238: the loop over `res.Rules`, appending to `cfg.Rules`. -/
def mapRules (res : DescribeRulesOutput) (cfgRules : GoSlice listenerRule) :
    Option (GoSlice listenerRule) :=
  rangeAppend mapRule res.Rules.toList cfgRules

/-- The method `dataSourceListenerRules.Read`; `stateSetDiags` are the
diagnostics `State.Set` reports for a value. -/
def Read (aws : Aws) (stateSetDiags : dataSourceListenerRulesData → Diagnostics)
    (p : provider) (req : ReadDataSourceRequest) (resp : ReadDataSourceResponse) : ReadResult :=
  let cfg := req.Config.Get.1
  let diags := req.Config.Get.2
  let resp1 : ReadDataSourceResponse := { resp with Diagnostics := resp.Diagnostics.Append diags }
  if resp1.Diagnostics.HasError then
    { resp := resp1, calls := [], panicked := false }
  else
    match aws.DescribeRules p.credentials p.region cfg.ListenerArn.Value with
    | Except.error err =>
      { resp := { resp1 with
                  Diagnostics := resp1.Diagnostics.AddError "Failed to describe ELB rules"
                    ("DescribeRules call failed:\n\n" ++ err) }
        calls := [ApiCall.describeRules cfg.ListenerArn.Value]
        panicked := false }
    | Except.ok res =>
      match mapRules res cfg.Rules with
      | none =>
        { resp := resp1, calls := [ApiCall.describeRules cfg.ListenerArn.Value], panicked := true }
      | some rules =>
        let cfg2 : dataSourceListenerRulesData := { cfg with Rules := rules }
        { resp := { State := some cfg2
                    Diagnostics := resp1.Diagnostics.Append (stateSetDiags cfg2) }
          calls := [ApiCall.describeRules cfg.ListenerArn.Value]
          panicked := false }

/-! ## `Configure` (provider.go, lines 64-105) -/

/-- The provider configuration as the host presents it, with the diagnostics
`Config.Get` reports while decoding. -/
structure ProviderConfig where
  region : TfString
  assume_role_arn : TfString
  session_name : TfString
  getDiags : Diagnostics
  deriving DecidableEq, Repr

/-- Framework `req.Config.Get(ctx, &cfg)`. -/
def ProviderConfig.Get (c : ProviderConfig) : providerData × Diagnostics :=
  ({ Region := c.region, AssumeRoleArn := c.assume_role_arn, SessionName := c.session_name },
   c.getDiags)

structure ConfigureProviderRequest where
  Config : ProviderConfig
  deriving DecidableEq, Repr

structure ConfigureProviderResponse where
  Diagnostics : Diagnostics
  deriving DecidableEq, Repr

/-- What a run of `Configure` leaves behind. -/
structure ConfigureResult where
  p : provider
  resp : ConfigureProviderResponse
  calls : List ApiCall
  panicked : Bool
  deriving DecidableEq, Repr

/-- Lines 95-99: `credentials.NewStaticCredentialsProvider` applied to the three
dereferenced fields of `assumeRoleResponse.Credentials`. -/
def staticCredentialsOf (out : AssumeRoleOutput) : Option CredentialsProvider :=
  match out.Credentials with
  | none => none
  | some c =>
    match c.AccessKeyId, c.SecretAccessKey, c.SessionToken with
    | some k, some s, some t => some (CredentialsProvider.static k s t)
    | _, _, _ => none

/-- The method `provider.Configure`. -/
def Configure (aws : Aws) (p : provider) (req : ConfigureProviderRequest)
    (resp : ConfigureProviderResponse) : ConfigureResult :=
  let cfg := req.Config.Get.1
  let diags := req.Config.Get.2
  let resp1 : ConfigureProviderResponse := { Diagnostics := resp.Diagnostics.Append diags }
  if resp1.Diagnostics.HasError then
    { p := p, resp := resp1, calls := [], panicked := false }
  else
    match aws.LoadDefaultConfig cfg.Region.Value with
    | Except.error err =>
      { p := p
        resp := { Diagnostics := resp1.Diagnostics.AddError "Unable to load AWS config"
                    ("LoadDefaultConfig failed:\n\n" ++ err) }
        calls := [ApiCall.loadDefaultConfig cfg.Region.Value]
        panicked := false }
    | Except.ok awsConfig =>
      if !cfg.AssumeRoleArn.Unknown then
        let input : AssumeRoleInput :=
          { RoleArn := some cfg.AssumeRoleArn.Value, RoleSessionName := some cfg.SessionName.Value }
        match aws.AssumeRole awsConfig input with
        | Except.error err =>
          { p := p
            resp := { Diagnostics := resp1.Diagnostics.AddError "Unable to assume role"
                        ("AssumeRole failed:\n\n" ++ err) }
            calls := [ApiCall.loadDefaultConfig cfg.Region.Value, ApiCall.assumeRole input]
            panicked := false }
        | Except.ok assumeRoleResponse =>
          match staticCredentialsOf assumeRoleResponse with
          | none =>
            { p := p, resp := resp1
              calls := [ApiCall.loadDefaultConfig cfg.Region.Value, ApiCall.assumeRole input]
              panicked := true }
          | some awsCredentials =>
            { p := { configured := true, region := cfg.Region.Value
                     credentials := some awsCredentials }
              resp := resp1
              calls := [ApiCall.loadDefaultConfig cfg.Region.Value, ApiCall.assumeRole input]
              panicked := false }
      else
        { p := { configured := true, region := cfg.Region.Value
                 credentials := some awsConfig.Credentials }
          resp := resp1
          calls := [ApiCall.loadDefaultConfig cfg.Region.Value]
          panicked := false }

/-! ## The `session_name` validators (provider.go, lines 46-59) -/

/-- The regular expressions needed for the pattern of the schema. -/
inductive Regexp where
  | nothing
  | epsilon
  | cls (p : Char → Bool)
  | cat (a b : Regexp)
  | alt (a b : Regexp)
  | star (a : Regexp)

/-- Whether the expression matches the empty string. -/
def Regexp.nullable : Regexp → Bool
  | Regexp.nothing => false
  | Regexp.epsilon => true
  | Regexp.cls _ => false
  | Regexp.cat a b => a.nullable && b.nullable
  | Regexp.alt a b => a.nullable || b.nullable
  | Regexp.star _ => true

/-- The derivative of the expression by one character. -/
def Regexp.deriv : Regexp → Char → Regexp
  | Regexp.nothing, _ => Regexp.nothing
  | Regexp.epsilon, _ => Regexp.nothing
  | Regexp.cls p, c => if p c then Regexp.epsilon else Regexp.nothing
  | Regexp.cat a b, c =>
    if a.nullable then Regexp.alt (Regexp.cat (a.deriv c) b) (b.deriv c)
    else Regexp.cat (a.deriv c) b
  | Regexp.alt a b, c => Regexp.alt (a.deriv c) (b.deriv c)
  | Regexp.star a, c => Regexp.cat (a.deriv c) (Regexp.star a)

/-- Whether the expression matches exactly the given characters. -/
def Regexp.fullMatch (re : Regexp) (cs : List Char) : Bool :=
  (cs.foldl Regexp.deriv re).nullable

/-- Go `(*regexp.Regexp).MatchString`: whether the string contains any match of
the expression, that is whether some substring is matched exactly. -/
def Regexp.MatchString (re : Regexp) (s : String) : Bool :=
  s.data.tails.any (fun t => t.inits.any (fun u => re.fullMatch u))

/-- The Perl class `\w` of Go regular expressions: `[0-9A-Za-z_]`. -/
def isWordChar (c : Char) : Bool :=
  (decide ('0' ≤ c) && decide (c ≤ '9')) || (decide ('A' ≤ c) && decide (c ≤ 'Z'))
    || (decide ('a' ≤ c) && decide (c ≤ 'z')) || decide (c = '_')

/-- The character class `[\w+=,.@\-]` of line 53. -/
def sessionNameClass (c : Char) : Bool :=
  isWordChar c || decide (c = '+') || decide (c = '=') || decide (c = ',')
    || decide (c = '.') || decide (c = '@') || decide (c = '-')

/-- Line 53: the pattern `[\w+=,.@\-]*` handed to `regexp.MustCompile`; it carries
no `^` or `$` anchor. -/
def sessionNameRegexp : Regexp := Regexp.star (Regexp.cls sessionNameClass)

/-- Lines 54-56: the message handed to `validators.StringMatch`. -/
def sessionNameMessage : String :=
  "Name must be a string of characters consisting of upper- and lower-case alphanumeric" ++
    " characters with no spaces. You can also include underscores or any of" ++
    " the following characters: =,.@-"

/-- Modelled from the spec: `validators.StringLenBetween` (package `validators`
is not among the sources). The spec asks for a session name of "length 2-64";
the validator reports an error for a known, non-null value whose length in
characters lies outside `min..max`, and nothing otherwise. -/
def StringLenBetween (min max : Nat) (v : TfString) : Diagnostics :=
  if v.Unknown || v.Null then []
  else if v.Value.length < min || max < v.Value.length then
    [{ severity := Severity.error, summary := "Invalid string length"
       detail := "length must be between the configured bounds" }]
  else []

/-- Modelled from the spec: `validators.StringMatch` (package `validators` is not
among the sources). The spec asks for the name to be "validated" against a
pattern before the exchange; the validator reports an error carrying `message`
for a known, non-null value which the regular expression does not match
(`MatchString`), and nothing otherwise. -/
def StringMatch (re : Regexp) (message : String) (v : TfString) : Diagnostics :=
  if v.Unknown || v.Null then []
  else if re.MatchString v.Value then []
  else [{ severity := Severity.error, summary := "Invalid string format", detail := message }]

/-- Lines 50-58: the `Validators` of the attribute `session_name`. -/
def sessionNameValidators : List (TfString → Diagnostics) :=
  [StringLenBetween 2 64, StringMatch sessionNameRegexp sessionNameMessage]

/-- The diagnostics the validators of `session_name` report for a value, each
validator being run in the order declared. -/
def validateSessionName (v : TfString) : Diagnostics :=
  sessionNameValidators.foldl (fun acc validator => Diagnostics.Append acc (validator v)) []

/-- The diagnostics the validators of the schema report for a configuration: only
`session_name` declares validators. -/
def validateProviderConfig (c : ProviderConfig) : Diagnostics :=
  validateSessionName c.session_name

/-- Whether the validators of the schema reject a session name given as a known,
non-null string. -/
def sessionNameRejected (name : String) : Bool :=
  (validateSessionName { Unknown := false, Null := false, Value := name }).HasError

/-- The charset of the spec: `[A-Za-z0-9+=,.@_-]`. -/
def inSessionNameCharset (c : Char) : Bool :=
  c.isAlphanum || c == '+' || c == '=' || c == ',' || c == '.' || c == '@' || c == '_' || c == '-'

/-- Modelled from the spec: the host protocol (the framework is not among the
sources). The session name is "validated before the exchange is attempted": the
host runs the validators of the schema first and calls `Configure` only when
they report no error. -/
def hostConfigure (aws : Aws) (p : provider) (req : ConfigureProviderRequest) : ConfigureResult :=
  let diags := validateProviderConfig req.Config
  if diags.HasError then
    { p := p, resp := { Diagnostics := diags }, calls := [], panicked := false }
  else
    Configure aws p req { Diagnostics := [] }

/-! ## The remote contract: no dereferenced pointer is null -/

/-- A query-string pair carries both its key and its value. -/
def wellFormedPair (e : QueryStringKeyValuePair) : Bool :=
  e.Key.isSome && e.Value.isSome

/-- A condition carries its field and only fully populated query-string pairs. -/
def wellFormedCondition (c : RuleCondition) : Bool :=
  c.Field.isSome &&
    (match c.QueryStringConfig with
     | none => true
     | some q => q.Values.toList.all wellFormedPair)

/-- A target group carries both its ARN and its weight. -/
def wellFormedTargetGroup (t : TargetGroupTuple) : Bool :=
  t.TargetGroupArn.isSome && t.Weight.isSome

/-- A fixed-response structure carries its three sub-fields. -/
def wellFormedFixedResponse (f : FixedResponseActionConfig) : Bool :=
  f.StatusCode.isSome && f.MessageBody.isSome && f.ContentType.isSome

/-- An action carries its order, only complete target groups and, when it has a
fixed-response structure, a complete one. -/
def wellFormedAction (a : Action) : Bool :=
  a.Order.isSome &&
    (match a.ForwardConfig with
     | none => true
     | some fc => fc.TargetGroups.toList.all wellFormedTargetGroup) &&
    (match a.FixedResponseConfig with
     | none => true
     | some f => wellFormedFixedResponse f)

/-- A rule carries its ARN and priority and only well-formed conditions and actions. -/
def wellFormedRule (r : Rule) : Bool :=
  r.RuleArn.isSome && r.Priority.isSome &&
    r.Conditions.toList.all wellFormedCondition && r.Actions.toList.all wellFormedAction

/-- A response violates the remote contract when one of its rules is not well formed. -/
def violatesContract (res : DescribeRulesOutput) : Bool :=
  res.Rules.toList.any (fun r => !wellFormedRule r)

/-! ## Example data and auxiliary predicates used by the statements -/

/-- The remote rule of the scenario: one path-pattern condition, one legacy
single-target forward action. -/
def scenarioRule : Rule :=
  { RuleArn := some "arn:rule/app/x/1/2/3"
    IsDefault := false
    Priority := some "1"
    Conditions := some [{ Field := some "path-pattern", HostHeaderConfig := none
                          HttpHeaderConfig := none, HttpRequestMethodConfig := none
                          PathPatternConfig := some { Values := some ["/api/*"] }
                          QueryStringConfig := none, SourceIpConfig := none, Values := none }]
    Actions := some [{ Typ := "forward", Order := some 1, ForwardConfig := none
                       FixedResponseConfig := none
                       TargetGroupArn := some "arn:targetgroup/tg/4"
                       RedirectConfig := none, AuthenticateOidcConfig := none
                       AuthenticateCognitoConfig := none }] }

/-- A default rule answering with a fixed response, with no condition. -/
def defaultRule : Rule :=
  { RuleArn := some "arn:rule/app/x/1/2/default"
    IsDefault := true
    Priority := some "default"
    Conditions := some []
    Actions := some [{ Typ := "fixed-response", Order := some 1, ForwardConfig := none
                       FixedResponseConfig := some { StatusCode := some "404"
                                                     MessageBody := some "not found"
                                                     ContentType := some "text/plain" }
                       TargetGroupArn := none
                       RedirectConfig := none, AuthenticateOidcConfig := none
                       AuthenticateCognitoConfig := none }] }

/-- A response of two rules: the rule of the scenario, then the default rule. -/
def twoRuleResponse : DescribeRulesOutput := { Rules := some [scenarioRule, defaultRule] }

/-- Collaborators whose default-chain discovery fails. -/
def awsLoadFailing : Aws :=
  { LoadDefaultConfig := fun _ => Except.error "no EC2 IMDS role found"
    AssumeRole := fun _ _ => Except.error "AccessDenied"
    DescribeRules := fun _ _ _ => Except.ok { Rules := none } }

/-- A rule whose `RuleArn` is null. -/
def ruleWithoutArn : Rule :=
  { RuleArn := none, IsDefault := true, Priority := some "default"
    Conditions := some [], Actions := some [] }

/-- Collaborators which answer `DescribeRules` with the given response. -/
def awsDescribing (res : DescribeRulesOutput) : Aws :=
  { LoadDefaultConfig := fun region =>
      Except.ok { Region := region, Credentials := CredentialsProvider.defaultChain "env" }
    AssumeRole := fun _ _ => Except.error "AccessDenied"
    DescribeRules := fun _ _ _ => Except.ok res }

/-- Collaborators whose `DescribeRules` fails with the given text. -/
def awsDescribeFailing (err : String) : Aws :=
  { LoadDefaultConfig := fun region =>
      Except.ok { Region := region, Credentials := CredentialsProvider.defaultChain "env" }
    AssumeRole := fun _ _ => Except.error "AccessDenied"
    DescribeRules := fun _ _ _ => Except.error err }

/-- A configured provider. -/
def configuredProvider : provider :=
  { configured := true, region := "us-east-1"
    credentials := some (CredentialsProvider.defaultChain "env") }

/-- A read request for the listener of the scenario. -/
def scenarioRequest : ReadDataSourceRequest :=
  { Config := { listener_arn := { Unknown := false, Null := false
                                  Value := "arn:listener/app/x/1/2" }
                getDiags := [] } }

/-- A fresh response. -/
def freshResponse : ReadDataSourceResponse := { State := none, Diagnostics := [] }

/-- An output slot mirrors a remote slot: nil when the remote slot is absent, the
inner value list of the remote slot, verbatim, when it is present. -/
def slotCopied (remote : Option ValuesConfig) (out : GoSlice String) : Prop :=
  (remote = none → out = none) ∧ (∀ v, remote = some v → out = v.Values)

/-- A host-header condition whose structure is present and holds an allocated,
empty value list. -/
def conditionEmptyHostHeader : RuleCondition :=
  { Field := some "host-header", HostHeaderConfig := some { Values := some [] }
    HttpHeaderConfig := none, HttpRequestMethodConfig := none, PathPatternConfig := none
    QueryStringConfig := none, SourceIpConfig := none, Values := none }

/-- A host-header condition whose structure is present and holds a nil value list. -/
def conditionNilHostHeader : RuleCondition :=
  { Field := some "host-header", HostHeaderConfig := some { Values := none }
    HttpHeaderConfig := none, HttpRequestMethodConfig := none, PathPatternConfig := none
    QueryStringConfig := none, SourceIpConfig := none, Values := none }

/-- A legacy condition: only `values` is present. -/
def conditionLegacy : RuleCondition :=
  { Field := some "path-pattern", HostHeaderConfig := none
    HttpHeaderConfig := none, HttpRequestMethodConfig := none, PathPatternConfig := none
    QueryStringConfig := none, SourceIpConfig := none, Values := some ["/img/*"] }

/-- A weighted forward action over two target groups. -/
def actionWeightedForward : Action :=
  { Typ := "forward", Order := some 1
    ForwardConfig := some { TargetGroups := some [
      { TargetGroupArn := some "arn:targetgroup/blue/1", Weight := some 90 },
      { TargetGroupArn := some "arn:targetgroup/green/2", Weight := some 10 }] }
    FixedResponseConfig := none, TargetGroupArn := none
    RedirectConfig := none, AuthenticateOidcConfig := none, AuthenticateCognitoConfig := none }

/-- A fixed-response action. -/
def actionFixedResponse : Action :=
  { Typ := "fixed-response", Order := some 2, ForwardConfig := none
    FixedResponseConfig := some { StatusCode := some "404", MessageBody := some "not found"
                                  ContentType := some "text/plain" }
    TargetGroupArn := none
    RedirectConfig := none, AuthenticateOidcConfig := none, AuthenticateCognitoConfig := none }

/-- A redirect action, with no forward and no fixed-response structure, which
carries the single `target_group_arn` field. -/
def actionRedirectWithTargetGroup : Action :=
  { Typ := "redirect", Order := some 1, ForwardConfig := none
    FixedResponseConfig := none, TargetGroupArn := some "arn:targetgroup/tg/4"
    RedirectConfig := some "HTTP_301", AuthenticateOidcConfig := none
    AuthenticateCognitoConfig := none }

/-- Collaborators for the configuration examples: the default chain resolves, and
STS refuses an empty role ARN and otherwise hands out temporary credentials. -/
def awsWithSts : Aws :=
  { LoadDefaultConfig := fun region =>
      Except.ok { Region := region, Credentials := CredentialsProvider.defaultChain "env" }
    AssumeRole := fun _ input =>
      if input.RoleArn = some "" then Except.error "ValidationError: invalid roleArn"
      else Except.ok { Credentials := some { AccessKeyId := some "ASIAEXAMPLE"
                                             SecretAccessKey := some "secret"
                                             SessionToken := some "token" } }
    DescribeRules := fun _ _ _ => Except.ok { Rules := none } }

/-- A known string value. -/
def TfString.known (s : String) : TfString := { Unknown := false, Null := false, Value := s }

/-- The null string value. -/
def TfString.null : TfString := { Unknown := false, Null := true, Value := "" }

/-- The configuration of the scenario: a region and no role ARN. -/
def configWithoutRole : ConfigureProviderRequest :=
  { Config := { region := TfString.known "us-east-1", assume_role_arn := TfString.null
                session_name := TfString.null, getDiags := [] } }

/-- A configuration assuming a role under the given session name. -/
def configWithSession (name : String) : ConfigureProviderRequest :=
  { Config := { region := TfString.known "us-east-1"
                assume_role_arn := TfString.known "arn:aws:iam::123456789012:role/reader"
                session_name := TfString.known name, getDiags := [] } }

/-! ## Lemmas on the append loop -/

theorem GoSlice.toList_append {α : Type} (s : GoSlice α) (x : α) :
    (GoSlice.append s x).toList = s.toList ++ [x] := rfl

theorem rangeAppend_nil {α β : Type} (f : α → Option β) (acc : GoSlice β) :
    rangeAppend f [] acc = some acc := rfl

/-- A completed loop appended, in order, the image of every element. -/
theorem rangeAppend_some {α β : Type} (f : α → Option β) :
    ∀ (xs : List α) (acc r : GoSlice β), rangeAppend f xs acc = some r →
      ∃ ys, List.Forall₂ (fun x y => f x = some y) xs ys ∧ r.toList = acc.toList ++ ys ∧
        (xs = [] → r = acc) ∧ (xs ≠ [] → r = some (acc.toList ++ ys)) := by
  intro xs
  induction xs with
  | nil =>
    intro acc r h
    simp only [rangeAppend, Option.some.injEq] at h
    exact ⟨[], List.Forall₂.nil, by simp [h], fun _ => h.symm, fun hne => absurd rfl hne⟩
  | cons x xs ih =>
    intro acc r h
    unfold rangeAppend at h
    cases hfx : f x with
    | none => simp [hfx] at h
    | some y =>
      simp only [hfx] at h
      obtain ⟨ys, hall, hlist, hnil, hcons⟩ := ih _ _ h
      refine ⟨y :: ys, List.Forall₂.cons hfx hall, ?_, ?_, ?_⟩
      · simp [hlist, GoSlice.toList_append]
      · intro hn; exact absurd hn (List.cons_ne_nil _ _)
      · intro _
        cases xs with
        | nil =>
          have hr := hnil rfl
          cases hall
          simp [hr, GoSlice.append]
        | cons z zs =>
          have hr := hcons (List.cons_ne_nil _ _)
          simp [hr, GoSlice.toList_append]

/-- The loop completes when no element makes the body dereference nil. -/
theorem rangeAppend_isSome {α β : Type} (f : α → Option β) :
    ∀ (xs : List α) (acc : GoSlice β), (∀ x ∈ xs, (f x).isSome = true) →
      (rangeAppend f xs acc).isSome = true := by
  intro xs
  induction xs with
  | nil => intro acc _; rfl
  | cons x xs ih =>
    intro acc h
    unfold rangeAppend
    have hx := h x (List.mem_cons_self _ _)
    cases hfx : f x with
    | none => simp [hfx] at hx
    | some y =>
      simp only
      exact ih _ (fun z hz => h z (List.mem_cons_of_mem _ hz))

/-- The loop aborts as soon as one element makes the body dereference nil. -/
theorem rangeAppend_none {α β : Type} (f : α → Option β) :
    ∀ (xs : List α) (acc : GoSlice β) (x : α), x ∈ xs → f x = none →
      rangeAppend f xs acc = none := by
  intro xs
  induction xs with
  | nil => intro acc x hx; simp at hx
  | cons z zs ih =>
    intro acc x hx hfx
    unfold rangeAppend
    cases hfz : f z with
    | none => rfl
    | some y =>
      simp only
      rcases List.mem_cons.mp hx with rfl | hmem
      · rw [hfx] at hfz; cases hfz
      · exact ih _ x hmem hfx

/-- The loop completes exactly when every element maps. -/
theorem rangeAppend_isSome_iff {α β : Type} (f : α → Option β) (xs : List α) (acc : GoSlice β) :
    (rangeAppend f xs acc).isSome = true ↔ ∀ x ∈ xs, (f x).isSome = true := by
  constructor
  · intro h x hx
    cases hfx : f x with
    | none => rw [rangeAppend_none f xs acc x hx hfx] at h; cases h
    | some y => rfl
  · exact rangeAppend_isSome f xs acc

/-- Positional reading of `List.Forall₂`. -/
theorem forall₂_getElem {α β : Type} {R : α → β → Prop} :
    ∀ {xs : List α} {ys : List β}, List.Forall₂ R xs ys →
      xs.length = ys.length ∧
        ∀ (i : Nat) (h1 : i < xs.length) (h2 : i < ys.length), R (xs.get ⟨i, h1⟩) (ys.get ⟨i, h2⟩) := by
  intro xs ys h
  induction h with
  | nil => exact ⟨rfl, fun i h1 => absurd h1 (Nat.not_lt_zero _)⟩
  | cons hab _ ih =>
    refine ⟨by simp [ih.1], ?_⟩
    intro i h1 h2
    cases i with
    | zero => exact hab
    | succ n => exact ih.2 n (Nat.lt_of_succ_lt_succ h1) (Nat.lt_of_succ_lt_succ h2)

/-! ## The mapping functions complete exactly on well-formed input -/

theorem mapKeyValuePair_isSome (e : QueryStringKeyValuePair) :
    (mapKeyValuePair e).isSome = wellFormedPair e := by
  unfold mapKeyValuePair wellFormedPair
  cases e.Key <;> cases e.Value <;> rfl

theorem mapTargetGroup_isSome (t : TargetGroupTuple) :
    (mapTargetGroup t).isSome = wellFormedTargetGroup t := by
  unfold mapTargetGroup wellFormedTargetGroup
  cases t.TargetGroupArn <;> cases t.Weight <;> rfl

theorem rangeAppend_isSome_all {α β : Type} (f : α → Option β) (wf : α → Bool)
    (hwf : ∀ x, (f x).isSome = wf x) (xs : List α) (acc : GoSlice β) :
    (rangeAppend f xs acc).isSome = xs.all wf := by
  rw [Bool.eq_iff_iff, rangeAppend_isSome_iff, List.all_eq_true]
  simp only [hwf]

theorem mapCondition_isSome (c : RuleCondition) :
    (mapCondition c).isSome = wellFormedCondition c := by
  unfold mapCondition wellFormedCondition queryStringConfigOf
  cases hq : c.QueryStringConfig with
  | none => cases c.Field <;> rfl
  | some q =>
    have h := rangeAppend_isSome_all mapKeyValuePair wellFormedPair mapKeyValuePair_isSome
      q.Values.toList (some [])
    simp only
    cases hr : rangeAppend mapKeyValuePair q.Values.toList (some []) with
    | none =>
      rw [hr] at h
      simp only [Option.isSome_none] at h
      simp [← h]
    | some l =>
      rw [hr] at h
      simp only [Option.isSome_some] at h
      cases c.Field <;> simp [← h]

theorem mapAction_isSome (a : Action) :
    (mapAction a).isSome = wellFormedAction a := by
  have hfw : (forwardConfigOf a.ForwardConfig).isSome =
      (match a.ForwardConfig with
       | none => true
       | some fc => fc.TargetGroups.toList.all wellFormedTargetGroup) := by
    unfold forwardConfigOf
    cases a.ForwardConfig with
    | none => rfl
    | some fc =>
      exact rangeAppend_isSome_all mapTargetGroup wellFormedTargetGroup mapTargetGroup_isSome _ _
  have hfx : (fixedResponseConfigOf a.FixedResponseConfig).isSome =
      (match a.FixedResponseConfig with
       | none => true
       | some f => wellFormedFixedResponse f) := by
    unfold fixedResponseConfigOf wellFormedFixedResponse
    cases a.FixedResponseConfig with
    | none => rfl
    | some f =>
      obtain ⟨sc, mb, ct⟩ := f
      cases sc <;> cases mb <;> cases ct <;> rfl
  unfold mapAction wellFormedAction
  rw [← hfw, ← hfx]
  cases forwardConfigOf a.ForwardConfig <;> cases fixedResponseConfigOf a.FixedResponseConfig <;>
    cases a.Order <;> rfl

theorem mapRule_isSome (r : Rule) : (mapRule r).isSome = wellFormedRule r := by
  have hc := rangeAppend_isSome_all mapCondition wellFormedCondition mapCondition_isSome
    r.Conditions.toList (some [])
  have ha := rangeAppend_isSome_all mapAction wellFormedAction mapAction_isSome
    r.Actions.toList (some [])
  unfold mapRule wellFormedRule
  rw [← hc, ← ha]
  cases rangeAppend mapCondition r.Conditions.toList (some []) <;>
    cases rangeAppend mapAction r.Actions.toList (some []) <;>
    cases r.RuleArn <;> cases r.Priority <;> rfl

/-- The scalar fields of a mapped rule are those of the remote rule. -/
theorem mapRule_fields (r : Rule) (out : listenerRule) (h : mapRule r = some out) :
    r.RuleArn = some out.RuleArn ∧ r.IsDefault = out.IsDefault ∧ r.Priority = some out.Priority := by
  unfold mapRule at h
  cases hc : rangeAppend mapCondition r.Conditions.toList (some []) with
  | none => simp [hc] at h
  | some cs =>
    cases ha : rangeAppend mapAction r.Actions.toList (some []) with
    | none => simp [hc, ha] at h
    | some as =>
      cases harn : r.RuleArn with
      | none => simp [hc, ha, harn] at h
      | some arn =>
        cases hp : r.Priority with
        | none => simp [hc, ha, harn, hp] at h
        | some prio =>
          simp only [hc, ha, harn, hp, Option.some.injEq] at h
          subst h
          exact ⟨rfl, rfl, rfl⟩

/-- A loop started on an allocated empty slice ends on an allocated slice holding,
in order, the image of every element. -/
theorem rangeAppend_some_alloc {α β : Type} (f : α → Option β) (xs : List α) (r : GoSlice β)
    (h : rangeAppend f xs (some []) = some r) :
    ∃ ys, r = some ys ∧ List.Forall₂ (fun x y => f x = some y) xs ys := by
  obtain ⟨ys, hall, _, hnil, hcons⟩ := rangeAppend_some f xs (some []) r h
  refine ⟨ys, ?_, hall⟩
  by_cases hx : xs = []
  · have hr := hnil hx
    rw [hx] at hall
    cases hall
    exact hr
  · simpa [GoSlice.toList] using hcons hx

/-- The conditions and actions of a mapped rule are allocated lists holding, in
order, the mapping of every remote condition and of every remote action. -/
theorem mapRule_lists (r : Rule) (out : listenerRule) (h : mapRule r = some out) :
    (∃ cs, out.Conditions = some cs ∧
      List.Forall₂ (fun c oc => mapCondition c = some oc) r.Conditions.toList cs) ∧
    (∃ acts, out.Actions = some acts ∧
      List.Forall₂ (fun a oa => mapAction a = some oa) r.Actions.toList acts) := by
  unfold mapRule at h
  cases hc : rangeAppend mapCondition r.Conditions.toList (some []) with
  | none => simp [hc] at h
  | some cs =>
    cases ha : rangeAppend mapAction r.Actions.toList (some []) with
    | none => simp [hc, ha] at h
    | some acts =>
      cases harn : r.RuleArn with
      | none => simp [hc, ha, harn] at h
      | some arn =>
        cases hp : r.Priority with
        | none => simp [hc, ha, harn, hp] at h
        | some prio =>
          simp only [hc, ha, harn, hp, Option.some.injEq] at h
          subst h
          obtain ⟨ys, hys, hall⟩ := rangeAppend_some_alloc mapCondition _ _ hc
          obtain ⟨zs, hzs, hall2⟩ := rangeAppend_some_alloc mapAction _ _ ha
          exact ⟨⟨ys, hys, hall⟩, ⟨zs, hzs, hall2⟩⟩

/-- What a successful `AssumeRole` answer must carry for the static source to be
built, and what is built from it. -/
theorem staticCredentialsOf_eq_some (out : AssumeRoleOutput) (c : CredentialsProvider) :
    staticCredentialsOf out = some c ↔
      ∃ k s t, out.Credentials =
          some { AccessKeyId := some k, SecretAccessKey := some s, SessionToken := some t } ∧
        c = CredentialsProvider.static k s t := by
  obtain ⟨creds⟩ := out
  cases creds with
  | none => simp [staticCredentialsOf]
  | some sc =>
    obtain ⟨k, sk, t⟩ := sc
    cases k with
    | none => simp [staticCredentialsOf]
    | some k =>
      cases sk with
      | none => simp [staticCredentialsOf]
      | some sk =>
        cases t with
        | none => simp [staticCredentialsOf]
        | some t =>
          simp only [staticCredentialsOf, Option.some.injEq]
          constructor
          · intro h
            exact ⟨k, sk, t, rfl, h.symm⟩
          · rintro ⟨k2, s2, t2, hfields, hc⟩
            cases hfields
            exact hc.symm

/-- The rule loop completes exactly on a response that honours the contract. -/
theorem mapRules_isSome (res : DescribeRulesOutput) (acc : GoSlice listenerRule) :
    (mapRules res acc).isSome = !violatesContract res := by
  unfold mapRules violatesContract
  rw [rangeAppend_isSome_all mapRule wellFormedRule mapRule_isSome]
  induction res.Rules.toList with
  | nil => rfl
  | cons x xs ih => simp [List.all_cons, List.any_cons, ih]

/-! ## Lemmas on diagnostics -/

theorem Diagnostics.not_mem_of_noError (diags : Diagnostics) (h : diags.HasError = false)
    (d : Diagnostic) (hd : d.severity = Severity.error) : d ∉ diags := by
  intro hmem
  unfold Diagnostics.HasError at h
  rw [List.any_eq_false] at h
  have := h d hmem
  simp [hd] at this

/-- On diagnostics holding no error, `AddError` appends exactly one entry. -/
theorem Diagnostics.AddError_of_noError (diags : Diagnostics) (h : diags.HasError = false)
    (summary detail : String) :
    diags.AddError summary detail =
      diags ++ [{ severity := Severity.error, summary := summary, detail := detail }] := by
  have hn := Diagnostics.not_mem_of_noError diags h
    { severity := Severity.error, summary := summary, detail := detail } rfl
  simp [Diagnostics.AddError, Diagnostics.Append, hn]

theorem Diagnostics.HasError_append_error (diags : Diagnostics) (summary detail : String) :
    Diagnostics.HasError
      (diags ++ [{ severity := Severity.error, summary := summary, detail := detail }]) = true := by
  simp [Diagnostics.HasError]

/-- `AddError` always leaves an error behind. -/
theorem Diagnostics.HasError_AddError (diags : Diagnostics) (summary detail : String) :
    (diags.AddError summary detail).HasError = true := by
  unfold Diagnostics.AddError Diagnostics.Append
  simp only [List.foldl_cons, List.foldl_nil]
  split
  · rename_i hmem
    unfold Diagnostics.HasError
    rw [List.any_eq_true]
    exact ⟨_, hmem, by simp⟩
  · exact Diagnostics.HasError_append_error diags summary detail

/-! ## Theorems on `Read` -/

/-- The three ways a run of `Read` ends once `Config.Get` reported no error and
`DescribeRules` answered. -/
theorem Read_of_ok (aws : Aws) (stateSetDiags : dataSourceListenerRulesData → Diagnostics)
    (p : provider) (req : ReadDataSourceRequest) (resp : ReadDataSourceResponse)
    (res : DescribeRulesOutput)
    (hget : (resp.Diagnostics.Append req.Config.getDiags).HasError = false)
    (hcall : aws.DescribeRules p.credentials p.region req.Config.listener_arn.Value =
      Except.ok res) :
    Read aws stateSetDiags p req resp =
      match mapRules res none with
      | none =>
        { resp := { resp with Diagnostics := resp.Diagnostics.Append req.Config.getDiags }
          calls := [ApiCall.describeRules req.Config.listener_arn.Value]
          panicked := true }
      | some rules =>
        { resp := { State := some { ListenerArn := req.Config.listener_arn, Rules := rules }
                    Diagnostics := (resp.Diagnostics.Append req.Config.getDiags).Append
                      (stateSetDiags { ListenerArn := req.Config.listener_arn, Rules := rules }) }
          calls := [ApiCall.describeRules req.Config.listener_arn.Value]
          panicked := false } := by
  unfold Read
  simp only [DataSourceConfig.Get, hget, hcall, Bool.false_eq_true, if_false]

/-- C1. Once `DescribeRules` has answered, `Read` completes exactly when the
response honours the remote contract, and then the rule list it hands to
`State.Set` has the length of the response's rule list and its i-th element is
the mapping of the i-th remote rule: it has the same rule_arn, is_default and
priority, its conditions are the remote rule's conditions mapped one by one in
order, and its actions are the remote rule's actions mapped one by one in
order. Nothing is reordered, dropped, deduplicated or merged. -/
theorem Read_rules_mirror_response (aws : Aws)
    (stateSetDiags : dataSourceListenerRulesData → Diagnostics)
    (p : provider) (req : ReadDataSourceRequest) (resp : ReadDataSourceResponse)
    (res : DescribeRulesOutput)
    (hget : (resp.Diagnostics.Append req.Config.getDiags).HasError = false)
    (hcall : aws.DescribeRules p.credentials p.region req.Config.listener_arn.Value =
      Except.ok res) :
    ((Read aws stateSetDiags p req resp).panicked = false ↔ violatesContract res = false) ∧
    ((Read aws stateSetDiags p req resp).panicked = false →
      ∃ rules : GoSlice listenerRule,
        (Read aws stateSetDiags p req resp).resp.State =
          some { ListenerArn := req.Config.listener_arn, Rules := rules } ∧
        rules.len = res.Rules.len ∧
        ∀ (i : Nat) (h : i < res.Rules.toList.length), ∃ out : listenerRule,
          rules.toList[i]? = some out ∧
          mapRule (res.Rules.toList.get ⟨i, h⟩) = some out ∧
          (res.Rules.toList.get ⟨i, h⟩).RuleArn = some out.RuleArn ∧
          (res.Rules.toList.get ⟨i, h⟩).IsDefault = out.IsDefault ∧
          (res.Rules.toList.get ⟨i, h⟩).Priority = some out.Priority ∧
          (∃ cs, out.Conditions = some cs ∧
            List.Forall₂ (fun c oc => mapCondition c = some oc)
              (res.Rules.toList.get ⟨i, h⟩).Conditions.toList cs) ∧
          (∃ acts, out.Actions = some acts ∧
            List.Forall₂ (fun a oa => mapAction a = some oa)
              (res.Rules.toList.get ⟨i, h⟩).Actions.toList acts)) := by
  rw [Read_of_ok aws stateSetDiags p req resp res hget hcall]
  have hsome := mapRules_isSome res none
  cases hm : mapRules res none with
  | none =>
    rw [hm] at hsome
    simp only [Option.isSome_none] at hsome
    refine ⟨?_, ?_⟩
    · simp only [Bool.true_eq_false, false_iff]
      intro hv
      rw [hv] at hsome
      cases hsome
    · intro h; cases h
  | some rules =>
    rw [hm] at hsome
    simp only [Option.isSome_some] at hsome
    refine ⟨?_, ?_⟩
    · simp only [true_iff]
      cases hv : violatesContract res with
      | false => rfl
      | true => rw [hv] at hsome; cases hsome
    · intro _
      obtain ⟨ys, hall, hlist, _, _⟩ := rangeAppend_some mapRule _ _ _ hm
      have hlist2 : rules.toList = ys := by simpa [GoSlice.toList] using hlist
      obtain ⟨hlen, hpos⟩ := forall₂_getElem hall
      refine ⟨rules, rfl, ?_, ?_⟩
      · simp [GoSlice.len, hlist2, hlen]
      · intro i h
        have h2 : i < ys.length := hlen ▸ h
        have hfields := mapRule_fields _ _ (hpos i h h2)
        have hlists := mapRule_lists _ _ (hpos i h h2)
        refine ⟨ys.get ⟨i, h2⟩, ?_, hpos i h h2, hfields.1, hfields.2.1, hfields.2.2,
          hlists.1, hlists.2⟩
        rw [hlist2]; exact List.getElem?_eq_getElem h2

/-- C1, at a response of two rules: the rule of the scenario and a default rule. -/
theorem Read_rules_mirror_response_witness :
    ((freshResponse.Diagnostics.Append scenarioRequest.Config.getDiags).HasError = false ∧
      (awsDescribing twoRuleResponse).DescribeRules
        configuredProvider.credentials configuredProvider.region
        scenarioRequest.Config.listener_arn.Value = Except.ok twoRuleResponse) ∧
    (((Read (awsDescribing twoRuleResponse) (fun _ => []) configuredProvider scenarioRequest freshResponse).panicked = false ↔ violatesContract twoRuleResponse = false) ∧
    ((Read (awsDescribing twoRuleResponse) (fun _ => []) configuredProvider scenarioRequest freshResponse).panicked = false →
      ∃ rules : GoSlice listenerRule,
        (Read (awsDescribing twoRuleResponse) (fun _ => []) configuredProvider scenarioRequest freshResponse).resp.State =
          some { ListenerArn := scenarioRequest.Config.listener_arn, Rules := rules } ∧
        rules.len = twoRuleResponse.Rules.len ∧
        ∀ (i : Nat) (h : i < twoRuleResponse.Rules.toList.length), ∃ out : listenerRule,
          rules.toList[i]? = some out ∧
          mapRule (twoRuleResponse.Rules.toList.get ⟨i, h⟩) = some out ∧
          (twoRuleResponse.Rules.toList.get ⟨i, h⟩).RuleArn = some out.RuleArn ∧
          (twoRuleResponse.Rules.toList.get ⟨i, h⟩).IsDefault = out.IsDefault ∧
          (twoRuleResponse.Rules.toList.get ⟨i, h⟩).Priority = some out.Priority ∧
          (∃ cs, out.Conditions = some cs ∧
            List.Forall₂ (fun c oc => mapCondition c = some oc)
              (twoRuleResponse.Rules.toList.get ⟨i, h⟩).Conditions.toList cs) ∧
          (∃ acts, out.Actions = some acts ∧
            List.Forall₂ (fun a oa => mapAction a = some oa)
              (twoRuleResponse.Rules.toList.get ⟨i, h⟩).Actions.toList acts))) :=
  ⟨⟨by decide, rfl⟩,
    Read_rules_mirror_response (awsDescribing twoRuleResponse) (fun _ => [])
      configuredProvider scenarioRequest freshResponse twoRuleResponse (by decide) rfl⟩

/-- C7, as the code behaves. When the response violates the remote contract (a
query-string pair with a null key or value, a condition with a null field, an
action with a null order, a rule with a null rule_arn or priority, a target
group with a null ARN or weight, a fixed-response with a null sub-field), `Read`
ends in a nil-pointer panic: it adds no diagnostic and never reaches `State.Set`,
so no rule, partial or complete, is written to state. -/
theorem Read_contract_violation_panics (aws : Aws)
    (stateSetDiags : dataSourceListenerRulesData → Diagnostics)
    (p : provider) (req : ReadDataSourceRequest) (resp : ReadDataSourceResponse)
    (res : DescribeRulesOutput)
    (hget : (resp.Diagnostics.Append req.Config.getDiags).HasError = false)
    (hcall : aws.DescribeRules p.credentials p.region req.Config.listener_arn.Value =
      Except.ok res)
    (hviol : violatesContract res = true) :
    (Read aws stateSetDiags p req resp).panicked = true ∧
    (Read aws stateSetDiags p req resp).resp.Diagnostics =
      resp.Diagnostics.Append req.Config.getDiags ∧
    (Read aws stateSetDiags p req resp).resp.State = resp.State := by
  rw [Read_of_ok aws stateSetDiags p req resp res hget hcall]
  have hsome := mapRules_isSome res none
  rw [hviol] at hsome
  cases hm : mapRules res none with
  | none => exact ⟨rfl, rfl, rfl⟩
  | some rules => rw [hm] at hsome; cases hsome

/-- C7, at a response whose only rule has a null rule_arn. -/
theorem Read_contract_violation_panics_witness :
    ((freshResponse.Diagnostics.Append scenarioRequest.Config.getDiags).HasError = false ∧
      (awsDescribing { Rules := some [ruleWithoutArn] }).DescribeRules
        configuredProvider.credentials configuredProvider.region
        scenarioRequest.Config.listener_arn.Value = Except.ok { Rules := some [ruleWithoutArn] } ∧
      violatesContract { Rules := some [ruleWithoutArn] } = true) ∧
    ((Read (awsDescribing { Rules := some [ruleWithoutArn] }) (fun _ => []) configuredProvider
        scenarioRequest freshResponse).panicked = true ∧
    (Read (awsDescribing { Rules := some [ruleWithoutArn] }) (fun _ => []) configuredProvider
        scenarioRequest freshResponse).resp.Diagnostics =
      freshResponse.Diagnostics.Append scenarioRequest.Config.getDiags ∧
    (Read (awsDescribing { Rules := some [ruleWithoutArn] }) (fun _ => []) configuredProvider
        scenarioRequest freshResponse).resp.State = freshResponse.State) :=
  ⟨⟨by decide, rfl, by decide⟩,
    Read_contract_violation_panics (awsDescribing { Rules := some [ruleWithoutArn] })
      (fun _ => []) configuredProvider scenarioRequest freshResponse
      { Rules := some [ruleWithoutArn] } (by decide) rfl (by decide)⟩

/-- C7 as stated fails: on a response whose only rule has a null rule_arn the run
of `Read` ends in a panic and the response holds no diagnostic at all, hence no
mapping error. -/
theorem Read_null_rule_arn_no_mapping_error :
    violatesContract { Rules := some [ruleWithoutArn] } = true ∧
    (Read (awsDescribing { Rules := some [ruleWithoutArn] }) (fun _ => []) configuredProvider
        scenarioRequest freshResponse).panicked = true ∧
    (Read (awsDescribing { Rules := some [ruleWithoutArn] }) (fun _ => []) configuredProvider
        scenarioRequest freshResponse).resp.Diagnostics = [] := by
  decide

/-- C8. When `DescribeRules` returns an error, `Read` appends exactly one error
diagnostic, whose summary names the operation and whose detail carries the
error text, and returns without touching the state. -/
theorem Read_describe_error (aws : Aws)
    (stateSetDiags : dataSourceListenerRulesData → Diagnostics)
    (p : provider) (req : ReadDataSourceRequest) (resp : ReadDataSourceResponse)
    (err : String)
    (hget : (resp.Diagnostics.Append req.Config.getDiags).HasError = false)
    (hcall : aws.DescribeRules p.credentials p.region req.Config.listener_arn.Value =
      Except.error err) :
    (Read aws stateSetDiags p req resp).resp.Diagnostics =
      resp.Diagnostics.Append req.Config.getDiags ++
        [{ severity := Severity.error, summary := "Failed to describe ELB rules"
           detail := "DescribeRules call failed:\n\n" ++ err }] ∧
    (Read aws stateSetDiags p req resp).resp.State = resp.State ∧
    (Read aws stateSetDiags p req resp).panicked = false := by
  have hrun : Read aws stateSetDiags p req resp =
      { resp := { resp with
                  Diagnostics := (resp.Diagnostics.Append req.Config.getDiags).AddError
                    "Failed to describe ELB rules" ("DescribeRules call failed:\n\n" ++ err) }
        calls := [ApiCall.describeRules req.Config.listener_arn.Value]
        panicked := false } := by
    unfold Read
    simp only [DataSourceConfig.Get, hget, hcall, Bool.false_eq_true, if_false]
  rw [hrun]
  exact ⟨Diagnostics.AddError_of_noError _ hget _ _, rfl, rfl⟩

/-- C8, at a throttled call. -/
theorem Read_describe_error_witness :
    ((freshResponse.Diagnostics.Append scenarioRequest.Config.getDiags).HasError = false ∧
      (awsDescribeFailing "ThrottlingException").DescribeRules
        configuredProvider.credentials configuredProvider.region
        scenarioRequest.Config.listener_arn.Value = Except.error "ThrottlingException") ∧
    ((Read (awsDescribeFailing "ThrottlingException") (fun _ => []) configuredProvider
        scenarioRequest freshResponse).resp.Diagnostics =
      freshResponse.Diagnostics.Append scenarioRequest.Config.getDiags ++
        [{ severity := Severity.error, summary := "Failed to describe ELB rules"
           detail := "DescribeRules call failed:\n\n" ++ "ThrottlingException" }] ∧
    (Read (awsDescribeFailing "ThrottlingException") (fun _ => []) configuredProvider
        scenarioRequest freshResponse).resp.State = freshResponse.State ∧
    (Read (awsDescribeFailing "ThrottlingException") (fun _ => []) configuredProvider
        scenarioRequest freshResponse).panicked = false) :=
  ⟨⟨by decide, rfl⟩,
    Read_describe_error (awsDescribeFailing "ThrottlingException") (fun _ => [])
      configuredProvider scenarioRequest freshResponse "ThrottlingException" (by decide) rfl⟩

/-! ## Conditions -/

theorem slotCopied_valuesOf (remote : Option ValuesConfig) : slotCopied remote (valuesOf remote) := by
  cases remote with
  | none => exact ⟨fun _ => rfl, fun v h => (by cases h)⟩
  | some c => exact ⟨fun h => (by cases h), fun v h => (by cases h; rfl)⟩

theorem queryStringConfigOf_spec (slot : Option QueryStringConditionConfig)
    (r : GoSlice keyValuePair) (h : queryStringConfigOf slot = some r) :
    (slot = none → r = none) ∧
    (∀ q, slot = some q → ∃ l : List keyValuePair, r = some l ∧
      List.Forall₂ (fun e kv => e.Key = some kv.Key ∧ e.Value = some kv.Value)
        q.Values.toList l) := by
  cases slot with
  | none =>
    simp only [queryStringConfigOf, Option.some.injEq] at h
    exact ⟨fun _ => h.symm, fun q hq => (by cases hq)⟩
  | some c =>
    refine ⟨fun hn => (by cases hn), ?_⟩
    intro q hq
    cases hq
    simp only [queryStringConfigOf] at h
    obtain ⟨ys, hall, hlist, hnil, hcons⟩ := rangeAppend_some mapKeyValuePair _ _ _ h
    refine ⟨ys, ?_, ?_⟩
    · by_cases hx : c.Values.toList = []
      · have := hnil hx
        rw [hx] at hall
        cases hall
        exact this
      · simpa [GoSlice.toList] using hcons hx
    · refine List.Forall₂.imp ?_ hall
      intro e kv hkv
      unfold mapKeyValuePair at hkv
      cases hk : e.Key with
      | none => simp [hk] at hkv
      | some k =>
        cases hv : e.Value with
        | none => simp [hk, hv] at hkv
        | some v =>
          simp only [hk, hv, Option.some.injEq] at hkv
          subst hkv
          exact ⟨rfl, rfl⟩

/-- C2, as the code behaves. A condition honouring the remote contract is mapped,
and in the result every structured slot is nil when the remote slot is absent
and holds the remote slot's inner value list verbatim when it is present (so it
has elements exactly when the remote slot is present with at least one value);
a present query-string slot yields an allocated list of the same pairs in
order; `values` is the remote list; and a condition whose only present slot is
the legacy `values` yields all structured slots nil and `values` verbatim. -/
theorem mapCondition_slots (c : RuleCondition) (hwf : wellFormedCondition c = true) :
    ∃ out : listenerRuleConditions, mapCondition c = some out ∧
      c.Field = some out.Field ∧
      slotCopied c.HostHeaderConfig out.HostHeaderConfig ∧
      slotCopied c.HttpHeaderConfig out.HttpHeaderConfig ∧
      slotCopied c.HttpRequestMethodConfig out.HttpRequestMethodConfig ∧
      slotCopied c.PathPatternConfig out.PathPatternConfig ∧
      slotCopied c.SourceIpConfig out.SourceIpConfig ∧
      (c.QueryStringConfig = none → out.QueryStringConfig = none) ∧
      (∀ q, c.QueryStringConfig = some q → ∃ l : List keyValuePair,
        out.QueryStringConfig = some l ∧ l.length = q.Values.len ∧
        List.Forall₂ (fun e kv => e.Key = some kv.Key ∧ e.Value = some kv.Value)
          q.Values.toList l) ∧
      out.Values = c.Values ∧
      (c.HostHeaderConfig = none → c.HttpHeaderConfig = none →
        c.HttpRequestMethodConfig = none → c.PathPatternConfig = none →
        c.QueryStringConfig = none → c.SourceIpConfig = none →
        out = { Field := out.Field, HostHeaderConfig := none, HttpHeaderConfig := none
                HttpRequestMethodConfig := none, PathPatternConfig := none
                QueryStringConfig := none, SourceIpConfig := none, Values := c.Values }) := by
  have hsome := mapCondition_isSome c
  rw [hwf] at hsome
  obtain ⟨out, hout⟩ := Option.isSome_iff_exists.mp hsome
  refine ⟨out, hout, ?_⟩
  unfold mapCondition at hout
  cases hq : queryStringConfigOf c.QueryStringConfig with
  | none => simp [hq] at hout
  | some qs =>
    cases hf : c.Field with
    | none => simp [hq, hf] at hout
    | some field =>
      simp only [hq, hf, Option.some.injEq] at hout
      subst hout
      obtain ⟨hqn, hqs⟩ := queryStringConfigOf_spec _ _ hq
      refine ⟨rfl, slotCopied_valuesOf _, slotCopied_valuesOf _, slotCopied_valuesOf _,
        slotCopied_valuesOf _, slotCopied_valuesOf _, hqn, ?_, rfl, ?_⟩
      · intro q hqeq
        obtain ⟨l, hl, hall⟩ := hqs q hqeq
        exact ⟨l, hl, (forall₂_getElem hall).1.symm, hall⟩
      · intro h1 h2 h3 h4 h5 h6
        simp [h1, h2, h3, h4, h6, valuesOf, hqn h5]

/-- C2, at the legacy condition. -/
theorem mapCondition_slots_witness :
    wellFormedCondition conditionLegacy = true ∧
    ∃ out : listenerRuleConditions, mapCondition conditionLegacy = some out ∧
      conditionLegacy.Field = some out.Field ∧
      slotCopied conditionLegacy.HostHeaderConfig out.HostHeaderConfig ∧
      slotCopied conditionLegacy.HttpHeaderConfig out.HttpHeaderConfig ∧
      slotCopied conditionLegacy.HttpRequestMethodConfig out.HttpRequestMethodConfig ∧
      slotCopied conditionLegacy.PathPatternConfig out.PathPatternConfig ∧
      slotCopied conditionLegacy.SourceIpConfig out.SourceIpConfig ∧
      (conditionLegacy.QueryStringConfig = none → out.QueryStringConfig = none) ∧
      (∀ q, conditionLegacy.QueryStringConfig = some q → ∃ l : List keyValuePair,
        out.QueryStringConfig = some l ∧ l.length = q.Values.len ∧
        List.Forall₂ (fun e kv => e.Key = some kv.Key ∧ e.Value = some kv.Value)
          q.Values.toList l) ∧
      out.Values = conditionLegacy.Values ∧
      (conditionLegacy.HostHeaderConfig = none → conditionLegacy.HttpHeaderConfig = none →
        conditionLegacy.HttpRequestMethodConfig = none →
        conditionLegacy.PathPatternConfig = none →
        conditionLegacy.QueryStringConfig = none → conditionLegacy.SourceIpConfig = none →
        out = { Field := out.Field, HostHeaderConfig := none, HttpHeaderConfig := none
                HttpRequestMethodConfig := none, PathPatternConfig := none
                QueryStringConfig := none, SourceIpConfig := none
                Values := conditionLegacy.Values }) :=
  ⟨by decide, mapCondition_slots conditionLegacy (by decide)⟩

/-- C2 as stated fails: a host-header structure that is present but holds no value
is mapped to an output slot without elements, and one that holds the nil list is
mapped to the nil slot; in both the remote slot is present and the output slot
is empty. -/
theorem mapCondition_present_slot_empty :
    conditionEmptyHostHeader.HostHeaderConfig.isSome = true ∧
    (∃ out : listenerRuleConditions, mapCondition conditionEmptyHostHeader = some out ∧
      out.HostHeaderConfig.len = 0) ∧
    conditionNilHostHeader.HostHeaderConfig.isSome = true ∧
    (∃ out : listenerRuleConditions, mapCondition conditionNilHostHeader = some out ∧
      out.HostHeaderConfig = none) :=
  ⟨rfl, ⟨_, rfl, rfl⟩, rfl, ⟨_, rfl, rfl⟩⟩

/-! ## Actions -/

theorem mapTargetGroup_spec (t : TargetGroupTuple) (o : actionForwardConfig)
    (h : mapTargetGroup t = some o) :
    t.TargetGroupArn = some o.TargetGroupArn ∧ t.Weight = some o.Weight := by
  unfold mapTargetGroup at h
  cases ha : t.TargetGroupArn with
  | none => simp [ha] at h
  | some arn =>
    cases hw : t.Weight with
    | none => simp [ha, hw] at h
    | some w =>
      simp only [ha, hw, Option.some.injEq] at h
      subst h
      exact ⟨rfl, rfl⟩

/-- The action mapping, spelled out by its three intermediate results. -/
theorem mapAction_eq_some (a : Action) (out : listenerRuleActions) (h : mapAction a = some out) :
    ∃ fw fx order, forwardConfigOf a.ForwardConfig = some fw ∧
      fixedResponseConfigOf a.FixedResponseConfig = some fx ∧ a.Order = some order ∧
      out = { Typ := a.Typ, Order := order, ForwardConfig := fw, FixedResponseConfig := fx
              TargetGroupArn := a.TargetGroupArn } := by
  unfold mapAction at h
  cases hfw : forwardConfigOf a.ForwardConfig with
  | none => simp [hfw] at h
  | some fw =>
    cases hfx : fixedResponseConfigOf a.FixedResponseConfig with
    | none => simp [hfw, hfx] at h
    | some fx =>
      cases ho : a.Order with
      | none => simp [hfw, hfx, ho] at h
      | some order =>
        simp only [hfw, hfx, ho, Option.some.injEq] at h
        exact ⟨fw, fx, order, rfl, rfl, rfl, h.symm⟩

/-- C4. For an action whose multi-target forward structure is present and whose
target groups all carry an ARN and a weight, the forward loop completes with
exactly as many entries as the remote target-group list, the i-th entry has the
ARN and weight of the i-th remote target group, that list is the
`forward_config` of the mapped action, and the action is mapped as soon as its
order and fixed-response sub-fields are present too. -/
theorem forward_config_positional (a : Action) (fc : ForwardActionConfig)
    (hfc : a.ForwardConfig = some fc)
    (htg : ∀ tg ∈ fc.TargetGroups.toList,
      tg.TargetGroupArn.isSome = true ∧ tg.Weight.isSome = true) :
    ∃ cfgs : List actionForwardConfig,
      forwardConfigOf a.ForwardConfig = some (some cfgs) ∧
      cfgs.length = fc.TargetGroups.len ∧
      (∀ (i : Nat) (h1 : i < fc.TargetGroups.toList.length) (h2 : i < cfgs.length),
        (fc.TargetGroups.toList.get ⟨i, h1⟩).TargetGroupArn =
            some (cfgs.get ⟨i, h2⟩).TargetGroupArn ∧
          (fc.TargetGroups.toList.get ⟨i, h1⟩).Weight = some (cfgs.get ⟨i, h2⟩).Weight) ∧
      (∀ out, mapAction a = some out → out.ForwardConfig = some cfgs) ∧
      (a.Order.isSome = true →
        (∀ f, a.FixedResponseConfig = some f → wellFormedFixedResponse f = true) →
        ∃ out, mapAction a = some out ∧ out.ForwardConfig = some cfgs) := by
  have hsome : (rangeAppend mapTargetGroup fc.TargetGroups.toList (some [])).isSome = true := by
    apply rangeAppend_isSome
    intro tg htgm
    rw [mapTargetGroup_isSome]
    simp [wellFormedTargetGroup, htg tg htgm]
  obtain ⟨r, hr⟩ := Option.isSome_iff_exists.mp hsome
  obtain ⟨ys, hall, hlist, hnil, hcons⟩ := rangeAppend_some mapTargetGroup _ _ _ hr
  have hrys : r = some ys := by
    by_cases hx : fc.TargetGroups.toList = []
    · have := hnil hx
      rw [hx] at hall
      cases hall
      exact this
    · simpa [GoSlice.toList] using hcons hx
  have hfw : forwardConfigOf a.ForwardConfig = some (some ys) := by
    rw [hfc]
    simp only [forwardConfigOf]
    rw [hr, hrys]
  obtain ⟨hlen, hpos⟩ := forall₂_getElem hall
  have hout : ∀ out, mapAction a = some out → out.ForwardConfig = some ys := by
    intro out ho
    obtain ⟨fw, fx, order, h1, _, _, h4⟩ := mapAction_eq_some a out ho
    rw [hfw] at h1
    cases h1
    rw [h4]
  refine ⟨ys, hfw, hlen.symm, ?_, hout, ?_⟩
  · intro i h1 h2
    exact mapTargetGroup_spec _ _ (hpos i h1 h2)
  · intro hord hfix
    have hwf : wellFormedAction a = true := by
      unfold wellFormedAction
      rw [hord, hfc]
      have hall2 : fc.TargetGroups.toList.all wellFormedTargetGroup = true := by
        rw [List.all_eq_true]
        intro tg htgm
        simp [wellFormedTargetGroup, htg tg htgm]
      simp only [hall2, Bool.and_self, Bool.true_and]
      cases hf : a.FixedResponseConfig with
      | none => rfl
      | some f => exact hfix f hf
    have hs := mapAction_isSome a
    rw [hwf] at hs
    obtain ⟨out, ho⟩ := Option.isSome_iff_exists.mp hs
    exact ⟨out, ho, hout out ho⟩

/-- C4, at a weighted forward over two target groups. -/
theorem forward_config_positional_witness :
    (actionWeightedForward.ForwardConfig = some { TargetGroups := some [
        { TargetGroupArn := some "arn:targetgroup/blue/1", Weight := some 90 },
        { TargetGroupArn := some "arn:targetgroup/green/2", Weight := some 10 }] } ∧
      ∀ tg ∈ GoSlice.toList (some [
          ({ TargetGroupArn := some "arn:targetgroup/blue/1", Weight := some 90 } :
            TargetGroupTuple),
          { TargetGroupArn := some "arn:targetgroup/green/2", Weight := some 10 }]),
        tg.TargetGroupArn.isSome = true ∧ tg.Weight.isSome = true) ∧
    ∃ cfgs : List actionForwardConfig,
      forwardConfigOf actionWeightedForward.ForwardConfig = some (some cfgs) ∧
      cfgs.length = GoSlice.len (some [
          ({ TargetGroupArn := some "arn:targetgroup/blue/1", Weight := some 90 } :
            TargetGroupTuple),
          { TargetGroupArn := some "arn:targetgroup/green/2", Weight := some 10 }]) ∧
      (∀ (i : Nat) (h1 : i < (GoSlice.toList (some [
          ({ TargetGroupArn := some "arn:targetgroup/blue/1", Weight := some 90 } :
            TargetGroupTuple),
          { TargetGroupArn := some "arn:targetgroup/green/2", Weight := some 10 }])).length)
          (h2 : i < cfgs.length),
        ((GoSlice.toList (some [
          ({ TargetGroupArn := some "arn:targetgroup/blue/1", Weight := some 90 } :
            TargetGroupTuple),
          { TargetGroupArn := some "arn:targetgroup/green/2", Weight := some 10 }])).get
            ⟨i, h1⟩).TargetGroupArn = some (cfgs.get ⟨i, h2⟩).TargetGroupArn ∧
        ((GoSlice.toList (some [
          ({ TargetGroupArn := some "arn:targetgroup/blue/1", Weight := some 90 } :
            TargetGroupTuple),
          { TargetGroupArn := some "arn:targetgroup/green/2", Weight := some 10 }])).get
            ⟨i, h1⟩).Weight = some (cfgs.get ⟨i, h2⟩).Weight) ∧
      (∀ out, mapAction actionWeightedForward = some out → out.ForwardConfig = some cfgs) ∧
      (actionWeightedForward.Order.isSome = true →
        (∀ f, actionWeightedForward.FixedResponseConfig = some f →
          wellFormedFixedResponse f = true) →
        ∃ out, mapAction actionWeightedForward = some out ∧ out.ForwardConfig = some cfgs) :=
  ⟨⟨rfl, by decide⟩,
    forward_config_positional actionWeightedForward _ rfl (by decide)⟩

/-- C9, as the code behaves. A remote action honouring the contract is mapped;
the result has the type and order of the remote action; its
`fixed_response_config` is present exactly when the remote structure is, with
the same status_code, message_body and content_type; its `target_group_arn` is
the remote one, whatever the type; its `forward_config` is nil when the remote
forward structure is absent; and an action with no forward structure, no
fixed-response structure and no `target_group_arn` yields type and order only,
whatever its type and its redirect or authenticate payload. -/
theorem mapAction_fields (a : Action) (hwf : wellFormedAction a = true) :
    ∃ out : listenerRuleActions, mapAction a = some out ∧
      out.Typ = a.Typ ∧ a.Order = some out.Order ∧
      out.FixedResponseConfig.isSome = a.FixedResponseConfig.isSome ∧
      (∀ f, a.FixedResponseConfig = some f → ∃ o, out.FixedResponseConfig = some o ∧
        f.StatusCode = some o.StatusCode ∧ f.MessageBody = some o.MessageBody ∧
        f.ContentType = some o.ContentType) ∧
      out.TargetGroupArn = a.TargetGroupArn ∧
      (a.ForwardConfig = none → out.ForwardConfig = none) ∧
      (a.ForwardConfig = none → a.FixedResponseConfig = none → a.TargetGroupArn = none →
        out = { Typ := a.Typ, Order := out.Order, ForwardConfig := none
                FixedResponseConfig := none, TargetGroupArn := none }) := by
  have hs := mapAction_isSome a
  rw [hwf] at hs
  obtain ⟨out, ho⟩ := Option.isSome_iff_exists.mp hs
  obtain ⟨fw, fx, order, h1, h2, h3, h4⟩ := mapAction_eq_some a out ho
  subst h4
  have hfwn : a.ForwardConfig = none → fw = none := by
    intro hn
    rw [hn] at h1
    simp only [forwardConfigOf, Option.some.injEq] at h1
    exact h1.symm
  have hfxn : a.FixedResponseConfig = none → fx = none := by
    intro hn
    rw [hn] at h2
    simp only [fixedResponseConfigOf, Option.some.injEq] at h2
    exact h2.symm
  have hfxs : ∀ f, a.FixedResponseConfig = some f → ∃ o, fx = some o ∧
      f.StatusCode = some o.StatusCode ∧ f.MessageBody = some o.MessageBody ∧
      f.ContentType = some o.ContentType := by
    intro f hf
    rw [hf] at h2
    obtain ⟨sc, mb, ct⟩ := f
    cases sc with
    | none => simp [fixedResponseConfigOf] at h2
    | some sc =>
      cases mb with
      | none => simp [fixedResponseConfigOf] at h2
      | some mb =>
        cases ct with
        | none => simp [fixedResponseConfigOf] at h2
        | some ct =>
          simp only [fixedResponseConfigOf, Option.some.injEq] at h2
          exact ⟨_, h2.symm, rfl, rfl, rfl⟩
  refine ⟨_, ho, rfl, h3, ?_, hfxs, rfl, hfwn, ?_⟩
  · cases hf : a.FixedResponseConfig with
    | none => simp [hfxn hf]
    | some f =>
      obtain ⟨o, hoeq, _⟩ := hfxs f hf
      simp [hoeq]
  · intro hn1 hn2 hn3
    simp [hfwn hn1, hfxn hn2, hn3]

/-- C9, at a fixed-response action. -/
theorem mapAction_fields_witness :
    wellFormedAction actionFixedResponse = true ∧
    ∃ out : listenerRuleActions, mapAction actionFixedResponse = some out ∧
      out.Typ = actionFixedResponse.Typ ∧ actionFixedResponse.Order = some out.Order ∧
      out.FixedResponseConfig.isSome = actionFixedResponse.FixedResponseConfig.isSome ∧
      (∀ f, actionFixedResponse.FixedResponseConfig = some f →
        ∃ o, out.FixedResponseConfig = some o ∧
        f.StatusCode = some o.StatusCode ∧ f.MessageBody = some o.MessageBody ∧
        f.ContentType = some o.ContentType) ∧
      out.TargetGroupArn = actionFixedResponse.TargetGroupArn ∧
      (actionFixedResponse.ForwardConfig = none → out.ForwardConfig = none) ∧
      (actionFixedResponse.ForwardConfig = none →
        actionFixedResponse.FixedResponseConfig = none →
        actionFixedResponse.TargetGroupArn = none →
        out = { Typ := actionFixedResponse.Typ, Order := out.Order, ForwardConfig := none
                FixedResponseConfig := none, TargetGroupArn := none }) :=
  ⟨by decide, mapAction_fields actionFixedResponse (by decide)⟩

/-- C9 as stated fails: a redirect action honouring the contract, with no forward
and no fixed-response structure, which carries the single `target_group_arn`
field is mapped to an action whose `target_group_arn` is that value, not empty:
the mapping never looks at the type. -/
theorem mapAction_redirect_keeps_target_group_arn :
    wellFormedAction actionRedirectWithTargetGroup = true ∧
    actionRedirectWithTargetGroup.Typ = "redirect" ∧
    actionRedirectWithTargetGroup.ForwardConfig = none ∧
    actionRedirectWithTargetGroup.FixedResponseConfig = none ∧
    mapAction actionRedirectWithTargetGroup =
      some { Typ := "redirect", Order := 1, ForwardConfig := none
             FixedResponseConfig := none, TargetGroupArn := some "arn:targetgroup/tg/4" } := by
  decide

/-! ## Theorems on `Configure` -/

/-- The run of `Configure` once the configuration was read and the default chain
resolved, when the role ARN is not unknown. -/
theorem Configure_of_known (aws : Aws) (p : provider) (req : ConfigureProviderRequest)
    (resp : ConfigureProviderResponse) (awsConfig : AwsConfig)
    (hget : (resp.Diagnostics.Append req.Config.getDiags).HasError = false)
    (hload : aws.LoadDefaultConfig req.Config.region.Value = Except.ok awsConfig)
    (hknown : req.Config.assume_role_arn.Unknown = false) :
    Configure aws p req resp =
      match aws.AssumeRole awsConfig { RoleArn := some req.Config.assume_role_arn.Value
                                       RoleSessionName := some req.Config.session_name.Value } with
      | Except.error err =>
        { p := p
          resp := { Diagnostics := (resp.Diagnostics.Append req.Config.getDiags).AddError
                      "Unable to assume role" ("AssumeRole failed:\n\n" ++ err) }
          calls := [ApiCall.loadDefaultConfig req.Config.region.Value,
            ApiCall.assumeRole { RoleArn := some req.Config.assume_role_arn.Value
                                 RoleSessionName := some req.Config.session_name.Value }]
          panicked := false }
      | Except.ok assumeRoleResponse =>
        match staticCredentialsOf assumeRoleResponse with
        | none =>
          { p := p, resp := { Diagnostics := resp.Diagnostics.Append req.Config.getDiags }
            calls := [ApiCall.loadDefaultConfig req.Config.region.Value,
              ApiCall.assumeRole { RoleArn := some req.Config.assume_role_arn.Value
                                   RoleSessionName := some req.Config.session_name.Value }]
            panicked := true }
        | some awsCredentials =>
          { p := { configured := true, region := req.Config.region.Value
                   credentials := some awsCredentials }
            resp := { Diagnostics := resp.Diagnostics.Append req.Config.getDiags }
            calls := [ApiCall.loadDefaultConfig req.Config.region.Value,
              ApiCall.assumeRole { RoleArn := some req.Config.assume_role_arn.Value
                                   RoleSessionName := some req.Config.session_name.Value }]
            panicked := false } := by
  unfold Configure
  simp only [ProviderConfig.Get, hget, hload, hknown, Bool.false_eq_true, if_false,
    Bool.not_false, if_true]

/-- The run of `Configure` once the configuration was read and the default chain
resolved, when the role ARN is unknown. -/
theorem Configure_of_unknown (aws : Aws) (p : provider) (req : ConfigureProviderRequest)
    (resp : ConfigureProviderResponse) (awsConfig : AwsConfig)
    (hget : (resp.Diagnostics.Append req.Config.getDiags).HasError = false)
    (hload : aws.LoadDefaultConfig req.Config.region.Value = Except.ok awsConfig)
    (hunknown : req.Config.assume_role_arn.Unknown = true) :
    Configure aws p req resp =
      { p := { configured := true, region := req.Config.region.Value
               credentials := some awsConfig.Credentials }
        resp := { Diagnostics := resp.Diagnostics.Append req.Config.getDiags }
        calls := [ApiCall.loadDefaultConfig req.Config.region.Value]
        panicked := false } := by
  unfold Configure
  simp only [ProviderConfig.Get, hget, hload, hunknown, Bool.false_eq_true, if_false,
    Bool.not_true]

/-- The run of `Configure` when reading the configuration reported an error. -/
theorem Configure_of_getError (aws : Aws) (p : provider) (req : ConfigureProviderRequest)
    (resp : ConfigureProviderResponse)
    (hget : (resp.Diagnostics.Append req.Config.getDiags).HasError = true) :
    Configure aws p req resp =
      { p := p, resp := { Diagnostics := resp.Diagnostics.Append req.Config.getDiags }
        calls := [], panicked := false } := by
  unfold Configure
  simp only [ProviderConfig.Get, hget, if_true]

/-- The run of `Configure` when `LoadDefaultConfig` failed. -/
theorem Configure_of_loadError (aws : Aws) (p : provider) (req : ConfigureProviderRequest)
    (resp : ConfigureProviderResponse) (err : String)
    (hget : (resp.Diagnostics.Append req.Config.getDiags).HasError = false)
    (hload : aws.LoadDefaultConfig req.Config.region.Value = Except.error err) :
    Configure aws p req resp =
      { p := p
        resp := { Diagnostics := (resp.Diagnostics.Append req.Config.getDiags).AddError
                    "Unable to load AWS config" ("LoadDefaultConfig failed:\n\n" ++ err) }
        calls := [ApiCall.loadDefaultConfig req.Config.region.Value]
        panicked := false } := by
  unfold Configure
  simp only [ProviderConfig.Get, hget, hload, Bool.false_eq_true, if_false]

/-- C10. `Configure` is atomic on the provider. When reading the configuration,
`LoadDefaultConfig` or `AssumeRole` fails, the provider is left exactly as it
was and an error diagnostic is recorded. On success the provider holds the
configured region, `configured = true` and the resolved credential source: the
source of the default chain when the role ARN is unknown, and otherwise the
static source built from the access key id, secret access key and session
token of the `AssumeRole` answer. Every run either leaves the provider as it
was, with an error diagnostic or a panic, or is such a success. -/
theorem Configure_atomic (aws : Aws) (p : provider) (req : ConfigureProviderRequest)
    (resp : ConfigureProviderResponse) :
    ((resp.Diagnostics.Append req.Config.getDiags).HasError = true →
      (Configure aws p req resp).p = p ∧
      (Configure aws p req resp).resp.Diagnostics.HasError = true) ∧
    (∀ err, (resp.Diagnostics.Append req.Config.getDiags).HasError = false →
      aws.LoadDefaultConfig req.Config.region.Value = Except.error err →
      (Configure aws p req resp).p = p ∧
      (Configure aws p req resp).resp.Diagnostics.HasError = true) ∧
    (∀ awsConfig err, (resp.Diagnostics.Append req.Config.getDiags).HasError = false →
      aws.LoadDefaultConfig req.Config.region.Value = Except.ok awsConfig →
      req.Config.assume_role_arn.Unknown = false →
      aws.AssumeRole awsConfig { RoleArn := some req.Config.assume_role_arn.Value
                                 RoleSessionName := some req.Config.session_name.Value } =
        Except.error err →
      (Configure aws p req resp).p = p ∧
      (Configure aws p req resp).resp.Diagnostics.HasError = true) ∧
    (∀ awsConfig, (resp.Diagnostics.Append req.Config.getDiags).HasError = false →
      aws.LoadDefaultConfig req.Config.region.Value = Except.ok awsConfig →
      req.Config.assume_role_arn.Unknown = true →
      (Configure aws p req resp).p =
        { configured := true, region := req.Config.region.Value
          credentials := some awsConfig.Credentials } ∧
      (Configure aws p req resp).panicked = false ∧
      (Configure aws p req resp).resp.Diagnostics.HasError = false) ∧
    (∀ awsConfig k s t, (resp.Diagnostics.Append req.Config.getDiags).HasError = false →
      aws.LoadDefaultConfig req.Config.region.Value = Except.ok awsConfig →
      req.Config.assume_role_arn.Unknown = false →
      aws.AssumeRole awsConfig { RoleArn := some req.Config.assume_role_arn.Value
                                 RoleSessionName := some req.Config.session_name.Value } =
        Except.ok { Credentials := some { AccessKeyId := some k, SecretAccessKey := some s
                                          SessionToken := some t } } →
      (Configure aws p req resp).p =
        { configured := true, region := req.Config.region.Value
          credentials := some (CredentialsProvider.static k s t) } ∧
      (Configure aws p req resp).panicked = false ∧
      (Configure aws p req resp).resp.Diagnostics.HasError = false) ∧
    ((Configure aws p req resp).p = p ∧
        ((Configure aws p req resp).resp.Diagnostics.HasError = true ∨
          (Configure aws p req resp).panicked = true) ∨
      ((Configure aws p req resp).panicked = false ∧
        (Configure aws p req resp).resp.Diagnostics.HasError = false ∧
        (Configure aws p req resp).p.configured = true ∧
        (Configure aws p req resp).p.region = req.Config.region.Value ∧
        ∃ awsConfig, aws.LoadDefaultConfig req.Config.region.Value = Except.ok awsConfig ∧
          ((req.Config.assume_role_arn.Unknown = true ∧
              (Configure aws p req resp).p.credentials = some awsConfig.Credentials) ∨
            (req.Config.assume_role_arn.Unknown = false ∧
              ∃ k s t,
                aws.AssumeRole awsConfig
                    { RoleArn := some req.Config.assume_role_arn.Value
                      RoleSessionName := some req.Config.session_name.Value } =
                  Except.ok { Credentials := some { AccessKeyId := some k
                                                    SecretAccessKey := some s
                                                    SessionToken := some t } } ∧
                (Configure aws p req resp).p.credentials =
                  some (CredentialsProvider.static k s t))))) := by
  refine ⟨?_, ?_, ?_, ?_, ?_, ?_⟩
  · intro hget
    rw [Configure_of_getError aws p req resp hget]
    exact ⟨rfl, hget⟩
  · intro err hget hload
    rw [Configure_of_loadError aws p req resp err hget hload]
    exact ⟨rfl, Diagnostics.HasError_AddError _ _ _⟩
  · intro awsConfig err hget hload hknown hsts
    rw [Configure_of_known aws p req resp awsConfig hget hload hknown, hsts]
    exact ⟨rfl, Diagnostics.HasError_AddError _ _ _⟩
  · intro awsConfig hget hload hunknown
    rw [Configure_of_unknown aws p req resp awsConfig hget hload hunknown]
    exact ⟨rfl, rfl, hget⟩
  · intro awsConfig k s t hget hload hknown hsts
    rw [Configure_of_known aws p req resp awsConfig hget hload hknown, hsts]
    exact ⟨rfl, rfl, hget⟩
  · cases hget : (resp.Diagnostics.Append req.Config.getDiags).HasError with
    | true =>
      left
      rw [Configure_of_getError aws p req resp hget]
      exact ⟨rfl, Or.inl hget⟩
    | false =>
      cases hload : aws.LoadDefaultConfig req.Config.region.Value with
      | error err =>
        left
        rw [Configure_of_loadError aws p req resp err hget hload]
        exact ⟨rfl, Or.inl (Diagnostics.HasError_AddError _ _ _)⟩
      | ok awsConfig =>
        cases hunk : req.Config.assume_role_arn.Unknown with
        | true =>
          right
          rw [Configure_of_unknown aws p req resp awsConfig hget hload hunk]
          exact ⟨rfl, hget, rfl, rfl, awsConfig, rfl, Or.inl ⟨rfl, rfl⟩⟩
        | false =>
          cases hsts : aws.AssumeRole awsConfig
            ⟨some req.Config.assume_role_arn.Value, some req.Config.session_name.Value⟩ with
          | error err =>
            left
            rw [Configure_of_known aws p req resp awsConfig hget hload hunk, hsts]
            exact ⟨rfl, Or.inl (Diagnostics.HasError_AddError _ _ _)⟩
          | ok out =>
            cases hcreds : staticCredentialsOf out with
            | none =>
              left
              have hrun : Configure aws p req resp =
                  { p := p, resp := { Diagnostics := resp.Diagnostics.Append req.Config.getDiags }
                    calls := [ApiCall.loadDefaultConfig req.Config.region.Value,
                      ApiCall.assumeRole { RoleArn := some req.Config.assume_role_arn.Value
                                           RoleSessionName := some req.Config.session_name.Value }]
                    panicked := true } := by
                rw [Configure_of_known aws p req resp awsConfig hget hload hunk, hsts]
                simp only [hcreds]
              rw [hrun]
              exact ⟨rfl, Or.inr rfl⟩
            | some creds =>
              right
              obtain ⟨k, s, t, hout, hc⟩ := (staticCredentialsOf_eq_some out creds).mp hcreds
              have hout2 : out = { Credentials := some { AccessKeyId := some k
                                                         SecretAccessKey := some s
                                                         SessionToken := some t } } := by
                cases out
                simp only at hout
                rw [hout]
              have hrun : Configure aws p req resp =
                  { p := { configured := true, region := req.Config.region.Value
                           credentials := some creds }
                    resp := { Diagnostics := resp.Diagnostics.Append req.Config.getDiags }
                    calls := [ApiCall.loadDefaultConfig req.Config.region.Value,
                      ApiCall.assumeRole { RoleArn := some req.Config.assume_role_arn.Value
                                           RoleSessionName := some req.Config.session_name.Value }]
                    panicked := false } := by
                rw [Configure_of_known aws p req resp awsConfig hget hload hunk, hsts]
                simp only [hcreds]
              rw [hrun]
              exact ⟨rfl, hget, rfl, rfl, awsConfig, rfl,
                Or.inr ⟨rfl, k, s, t, hsts.trans (congrArg Except.ok hout2), by rw [hc]⟩⟩

/-- C10, at three runs on a fresh provider: a role assumed under the session name
"deploy" (success, the static source of the answer is stored), a default chain
that cannot be resolved, and an `AssumeRole` call that STS refuses (both leave
the provider fresh, with an error). -/
theorem Configure_atomic_witness :
    ((Configure awsWithSts New (configWithSession "deploy") (ConfigureProviderResponse.mk [])).p =
        { configured := true, region := "us-east-1"
          credentials := some (CredentialsProvider.static "ASIAEXAMPLE" "secret" "token") } ∧
      (Configure awsWithSts New (configWithSession "deploy")
        (ConfigureProviderResponse.mk [])).panicked = false ∧
      (Configure awsWithSts New (configWithSession "deploy")
        (ConfigureProviderResponse.mk [])).resp.Diagnostics.HasError = false) ∧
    ((Configure awsLoadFailing New (configWithSession "deploy")
        (ConfigureProviderResponse.mk [])).p = New ∧
      (Configure awsLoadFailing New (configWithSession "deploy")
        (ConfigureProviderResponse.mk [])).resp.Diagnostics.HasError = true) ∧
    ((Configure awsWithSts New configWithoutRole (ConfigureProviderResponse.mk [])).p = New ∧
      (Configure awsWithSts New configWithoutRole
        (ConfigureProviderResponse.mk [])).resp.Diagnostics.HasError = true) :=
  ⟨(Configure_atomic awsWithSts New (configWithSession "deploy")
      (ConfigureProviderResponse.mk [])).2.2.2.2.1
      { Region := "us-east-1", Credentials := CredentialsProvider.defaultChain "env" }
      "ASIAEXAMPLE" "secret" "token" (by decide) rfl rfl rfl,
    (Configure_atomic awsLoadFailing New (configWithSession "deploy")
      (ConfigureProviderResponse.mk [])).2.1 "no EC2 IMDS role found" (by decide) rfl,
    (Configure_atomic awsWithSts New configWithoutRole
      (ConfigureProviderResponse.mk [])).2.2.1
      { Region := "us-east-1", Credentials := CredentialsProvider.defaultChain "env" }
      "ValidationError: invalid roleArn" (by decide) rfl rfl rfl⟩

/-- C3, what the code does. With a role ARN that is null (absent) and not unknown,
`Configure` still calls `AssumeRole`, once, with the empty role ARN; and when
that call fails the provider is left unconfigured with an error diagnostic,
the default-chain source not being stored. -/
theorem Configure_null_role_arn_calls_sts (aws : Aws) (p : provider)
    (req : ConfigureProviderRequest) (resp : ConfigureProviderResponse) (awsConfig : AwsConfig)
    (hget : (resp.Diagnostics.Append req.Config.getDiags).HasError = false)
    (hload : aws.LoadDefaultConfig req.Config.region.Value = Except.ok awsConfig)
    (hnull : req.Config.assume_role_arn.Null = true)
    (hknown : req.Config.assume_role_arn.Unknown = false) :
    (Configure aws p req resp).calls =
      [ApiCall.loadDefaultConfig req.Config.region.Value,
        ApiCall.assumeRole { RoleArn := some req.Config.assume_role_arn.Value
                             RoleSessionName := some req.Config.session_name.Value }] ∧
    ((Configure aws p req resp).calls.filter ApiCall.isSts).length = 1 ∧
    (∀ err, aws.AssumeRole awsConfig { RoleArn := some req.Config.assume_role_arn.Value
                                       RoleSessionName := some req.Config.session_name.Value } =
        Except.error err →
      (Configure aws p req resp).p = p ∧
      (Configure aws p req resp).resp.Diagnostics.HasError = true) := by
  have _ := hnull
  rw [Configure_of_known aws p req resp awsConfig hget hload hknown]
  cases hsts : aws.AssumeRole awsConfig
    ⟨some req.Config.assume_role_arn.Value, some req.Config.session_name.Value⟩ with
  | error err =>
    refine ⟨rfl, rfl, ?_⟩
    intro err2 _
    exact ⟨rfl, Diagnostics.HasError_AddError _ _ _⟩
  | ok out =>
    cases hc : staticCredentialsOf out with
    | none =>
      simp only [hc]
      exact ⟨trivial, rfl, fun err2 h => (by cases h)⟩
    | some creds =>
      simp only [hc]
      exact ⟨trivial, rfl, fun err2 h => (by cases h)⟩

/-- C3, at the scenario of the specification: region "us-east-1" and no role ARN,
on a fresh provider. -/
theorem Configure_null_role_arn_calls_sts_witness :
    (((ConfigureProviderResponse.mk []).Diagnostics.Append
        configWithoutRole.Config.getDiags).HasError = false ∧
      awsWithSts.LoadDefaultConfig configWithoutRole.Config.region.Value =
        Except.ok { Region := "us-east-1", Credentials := CredentialsProvider.defaultChain "env" } ∧
      configWithoutRole.Config.assume_role_arn.Null = true ∧
      configWithoutRole.Config.assume_role_arn.Unknown = false) ∧
    ((Configure awsWithSts New configWithoutRole (ConfigureProviderResponse.mk [])).calls =
      [ApiCall.loadDefaultConfig configWithoutRole.Config.region.Value,
        ApiCall.assumeRole { RoleArn := some configWithoutRole.Config.assume_role_arn.Value
                             RoleSessionName := some configWithoutRole.Config.session_name.Value }] ∧
    ((Configure awsWithSts New configWithoutRole
        (ConfigureProviderResponse.mk [])).calls.filter ApiCall.isSts).length = 1 ∧
    (∀ err, awsWithSts.AssumeRole
        { Region := "us-east-1", Credentials := CredentialsProvider.defaultChain "env" }
        { RoleArn := some configWithoutRole.Config.assume_role_arn.Value
          RoleSessionName := some configWithoutRole.Config.session_name.Value } =
        Except.error err →
      (Configure awsWithSts New configWithoutRole (ConfigureProviderResponse.mk [])).p = New ∧
      (Configure awsWithSts New configWithoutRole
        (ConfigureProviderResponse.mk [])).resp.Diagnostics.HasError = true)) :=
  ⟨⟨by decide, rfl, rfl, rfl⟩,
    Configure_null_role_arn_calls_sts awsWithSts New configWithoutRole
      (ConfigureProviderResponse.mk [])
      { Region := "us-east-1", Credentials := CredentialsProvider.defaultChain "env" }
      (by decide) rfl rfl rfl⟩

/-- The run of `Configure` at the scenario "region us-east-1, no role ARN": one
STS call with the empty role ARN, the provider left unconfigured, one error. -/
theorem Configure_without_role_run :
    Configure awsWithSts New configWithoutRole (ConfigureProviderResponse.mk []) =
      { p := New
        resp := { Diagnostics := [{ severity := Severity.error
                                    summary := "Unable to assume role"
                                    detail := "AssumeRole failed:\n\nValidationError: invalid roleArn" }] }
        calls := [ApiCall.loadDefaultConfig "us-east-1",
          ApiCall.assumeRole { RoleArn := some "", RoleSessionName := some "" }]
        panicked := false } := by
  decide

/-! ## Theorems on the `session_name` validators -/

/-- The pattern of the schema matches every string: it is a starred class with
no anchor, so the empty match at the start of the string always exists. -/
theorem sessionNameRegexp_MatchString (s : String) : sessionNameRegexp.MatchString s = true := by
  unfold Regexp.MatchString
  cases s.data with
  | nil => rfl
  | cons c cs =>
    simp [List.tails, List.inits, Regexp.fullMatch, sessionNameRegexp, Regexp.nullable]

/-- The pattern validator of the schema reports nothing, whatever the value. -/
theorem StringMatch_sessionNameRegexp (v : TfString) :
    StringMatch sessionNameRegexp sessionNameMessage v = [] := by
  unfold StringMatch
  simp [sessionNameRegexp_MatchString]

/-- The validators of `session_name` reduce to the length check. -/
theorem validateSessionName_eq (v : TfString) :
    validateSessionName v = Diagnostics.Append [] (StringLenBetween 2 64 v) := by
  simp [validateSessionName, sessionNameValidators, StringMatch_sessionNameRegexp,
    Diagnostics.Append]

/-- C5, what the code does. Every session name of 2 to 64 characters passes the
validators of the schema, whatever its characters: the host goes on to
`Configure` with it. -/
theorem sessionName_charset_not_enforced (name : String)
    (hmin : 2 ≤ name.length) (hmax : name.length ≤ 64) :
    sessionNameRejected name = false ∧
    ∀ (aws : Aws) (p : provider) (req : ConfigureProviderRequest),
      req.Config.session_name = TfString.known name →
      hostConfigure aws p req = Configure aws p req { Diagnostics := [] } := by
  have hval : validateSessionName (TfString.known name) = [] := by
    rw [validateSessionName_eq]
    have h1 : ¬ name.length < 2 := by omega
    have h2 : ¬ 64 < name.length := by omega
    simp [StringLenBetween, TfString.known, h1, h2, Diagnostics.Append]
  refine ⟨?_, ?_⟩
  · unfold sessionNameRejected
    exact (congrArg Diagnostics.HasError hval).trans rfl
  · intro aws p req hreq
    unfold hostConfigure validateProviderConfig
    rw [hreq, hval]
    rfl

/-- C5, at the session name "a b": it holds a space, outside the charset, passes
the validators, and reaches `AssumeRole`. -/
theorem sessionName_charset_not_enforced_witness :
    (2 ≤ "a b".length ∧ "a b".length ≤ 64 ∧ "a b".data.all inSessionNameCharset = false) ∧
    (sessionNameRejected "a b" = false ∧
      ∀ (aws : Aws) (p : provider) (req : ConfigureProviderRequest),
        req.Config.session_name = TfString.known "a b" →
        hostConfigure aws p req = Configure aws p req { Diagnostics := [] }) :=
  ⟨by decide, sessionName_charset_not_enforced "a b" (by decide) (by decide)⟩

/-- The host's run at the session name "a b": the exchange is attempted with it. -/
theorem hostConfigure_with_space_run :
    (hostConfigure awsWithSts New (configWithSession "a b")).calls =
      [ApiCall.loadDefaultConfig "us-east-1",
        ApiCall.assumeRole { RoleArn := some "arn:aws:iam::123456789012:role/reader"
                             RoleSessionName := some "a b" }] := by
  decide

/-- C6. A session name of length 1 is rejected by the validators of the schema
(the length must lie between 2 and 64), and the host then never calls
`Configure`: no remote call is made and the provider is left as it was. -/
theorem sessionName_length_one_rejected (name : String) (hlen : name.length = 1) :
    sessionNameRejected name = true ∧
    ∀ (aws : Aws) (p : provider) (req : ConfigureProviderRequest),
      req.Config.session_name = TfString.known name →
      (hostConfigure aws p req).calls = [] ∧ (hostConfigure aws p req).p = p ∧
        (hostConfigure aws p req).resp.Diagnostics.HasError = true := by
  have hval : (validateSessionName (TfString.known name)).HasError = true := by
    rw [validateSessionName_eq]
    simp [StringLenBetween, TfString.known, hlen, Diagnostics.Append, Diagnostics.HasError]
  refine ⟨hval, ?_⟩
  intro aws p req hreq
  unfold hostConfigure validateProviderConfig
  rw [hreq]
  simp [hval]

/-- C6, at the session name "a". -/
theorem sessionName_length_one_rejected_witness :
    "a".length = 1 ∧
    (sessionNameRejected "a" = true ∧
      ∀ (aws : Aws) (p : provider) (req : ConfigureProviderRequest),
        req.Config.session_name = TfString.known "a" →
        (hostConfigure aws p req).calls = [] ∧ (hostConfigure aws p req).p = p ∧
          (hostConfigure aws p req).resp.Diagnostics.HasError = true) :=
  ⟨by decide, sessionName_length_one_rejected "a" (by decide)⟩

/-! ## The scenarios of the specification, evaluated -/

/-- The listener scenario: the rule with one path-pattern condition and one legacy
forward action is written to state as that record, every other slot nil. -/
theorem Read_scenario_run :
    Read (awsDescribing { Rules := some [scenarioRule] }) (fun _ => []) configuredProvider
        scenarioRequest freshResponse =
      { resp := { State := some
                    { ListenerArn := scenarioRequest.Config.listener_arn
                      Rules := some [
                        { RuleArn := "arn:rule/app/x/1/2/3", IsDefault := false, Priority := "1"
                          Conditions := some [
                            { Field := "path-pattern", HostHeaderConfig := none
                              HttpHeaderConfig := none, HttpRequestMethodConfig := none
                              PathPatternConfig := some ["/api/*"], QueryStringConfig := none
                              SourceIpConfig := none, Values := none }]
                          Actions := some [
                            { Typ := "forward", Order := 1, ForwardConfig := none
                              FixedResponseConfig := none
                              TargetGroupArn := some "arn:targetgroup/tg/4" }] }] }
                  Diagnostics := [] }
        calls := [ApiCall.describeRules "arn:listener/app/x/1/2"]
        panicked := false } := by
  decide

end AwsExtras
